import Mathlib

/-!
# Verification of the dispatch / package / route engine

Shallow embedding of the order-dispatch engine of the repository: the SQL
tables become lists of rows, the PL/pgSQL trigger functions and batch
functions become Lean functions on an explicit database state, and the
Postgres behaviours that matter here (BEFORE-trigger cascades, the
`unique_order_assignment` constraint, per-facility EXCEPTION blocks with
rollback-to-block-entry semantics) are modelled explicitly.

Sources embedded (migration files of the repository):
* `20250325021504_broad_pine.sql` — `validate_order_assignment`,
  `prevent_duplicate_driver_assignment`, `unique_order_assignment`.
* `20250324060912_frosty_union.sql` — `find_nearest_facility`,
  `assign_nearest_facility`.
* `20250325010959_crystal_ocean.sql` — table shapes, `optimize_route`,
  `notify_unassigned_packages`.
* `20250325020803_rough_pine.sql` — `generate_driver_packages` (the final
  CREATE OR REPLACE of that function).
* `src/unnamed/part_003` — `find_available_driver`, `handle_order_package`.

The haversine distance (`calculate_distance` / `calculate_route_distance`)
is a pure real-valued function of two coordinate pairs; every property in
scope is independent of its concrete values, so it is passed as an explicit
parameter `dist` to the functions that call it.  Likewise, the SQL
`random()` calls inside `optimize_route` are modelled by an explicit oracle
of pre-drawn coordinate pairs.
-/

/-- Order lifecycle status (`orders.status` CHECK constraint). -/
inductive OrderStatus where
  | pending | processing | shipped | delivered | cancelled
deriving Repr, DecidableEq

/-- Package lifecycle status (`driver_packages.status` CHECK constraint). -/
inductive PkgStatus where
  | pending | assigned | in_progress | completed | cancelled
deriving Repr, DecidableEq

/-- Event kinds appearing in `package_logs.event_type` in the embedded code:
`order_assigned` (handle_order_package), `unassigned_package_alert`
(notify_unassigned_packages), `package_generation_error`
(generate_driver_packages exception handler). -/
inductive EventType where
  | order_assigned | unassigned_package_alert | package_generation_error
deriving Repr, DecidableEq

/-- Errors raised by the embedded PL/pgSQL functions and constraints.
`orderAlreadyAssigned` is RAISE EXCEPTION of validate_order_assignment,
`driverMismatch` its second RAISE, `driverDoubleBooked` the RAISE of
prevent_duplicate_driver_assignment, `uniqueViolation` the
`unique_order_assignment` UNIQUE constraint. -/
inductive PgError where
  | orderAlreadyAssigned (order_id : Nat)
  | driverMismatch (order_id : Nat)
  | driverDoubleBooked (order_id : Nat)
  | inactiveDriver
  | uniqueViolation
deriving Repr, DecidableEq

/-- A row of `orders` (the columns the engine reads or writes).
`estimated_delivery_date` is `date(estimated_delivery)` and
`estimated_delivery_time` is `estimated_delivery::time` in minutes. -/
structure OrderRow where
  id : Nat
  status : OrderStatus
  facility_id : Option Nat
  assigned_driver_id : Option Nat
  estimated_delivery_date : Nat
  estimated_delivery_time : Nat
  latitude : Option Rat
  longitude : Option Rat
deriving Repr, DecidableEq

/-- A row of `facilities`. `status` is the active flag. -/
structure FacilityRow where
  id : Nat
  status : Bool
  latitude : Rat
  longitude : Rat
  opening_hour : Nat
  close_hour : Nat
deriving Repr, DecidableEq

/-- A row of `drivers`. -/
structure DriverRow where
  id : Nat
  status : Bool
deriving Repr, DecidableEq

/-- A row of `facility_drivers` (driver can-serve-facility relation). -/
structure FacilityDriverRow where
  facility_id : Nat
  driver_id : Nat
deriving Repr, DecidableEq

/-- A row of `driver_packages`.  `created_at` is modelled by the id
assigned at creation, which grows monotonically, so `ORDER BY created_at`
coincides with ordering by this field. -/
structure DriverPackageRow where
  id : Nat
  driver_id : Option Nat
  facility_id : Nat
  package_date : Nat
  status : PkgStatus
  created_at : Nat
deriving Repr, DecidableEq

/-- A row of `package_orders` (an Assignment). -/
structure PackageOrderRow where
  id : Nat
  package_id : Nat
  order_id : Nat
  sequence_number : Nat
deriving Repr, DecidableEq

/-- A row of `package_logs` (the Event log).  The `details` jsonb payload
is flattened into optional fields; a field not present in a given payload
is `none`. -/
structure PackageLogRow where
  package_id : Option Nat
  event_type : EventType
  detail_facility : Option Nat
  detail_order : Option Nat
  detail_driver : Option Nat
  detail_date : Option Nat
  detail_error : Option PgError
deriving Repr, DecidableEq

/-- The database state.  `nextId` is the source of fresh ids
(`gen_random_uuid()` in the source; monotone Nat here). -/
structure DB where
  orders : List OrderRow
  facilities : List FacilityRow
  drivers : List DriverRow
  facility_drivers : List FacilityDriverRow
  driver_packages : List DriverPackageRow
  package_orders : List PackageOrderRow
  package_logs : List PackageLogRow
  nextId : Nat
deriving Repr, DecidableEq

/-- SQL three-valued equality of two nullable columns: `a = b` is true only
when both are non-NULL and equal. -/
def sqlEqOpt (a b : Option Nat) : Bool :=
  match a, b with
  | some x, some y => decide (x = y)
  | _, _ => false

/-- SQL three-valued inequality `a != b`: true only when both are non-NULL
and different. -/
def sqlNeOpt (a b : Option Nat) : Bool :=
  match a, b with
  | some x, some y => decide (x ≠ y)
  | _, _ => false

/-- `ORDER BY key ASC LIMIT 1` over a scan: the first element attaining the
minimal key (Postgres leaves the tie order unspecified; the model fixes the
scan order of the list, and a later element replaces the current best only
when its key is strictly smaller). -/
def selectMinBy {α β : Type} [LinearOrder β] (key : α → β) : List α → Option α
  | [] => none
  | x :: xs => some (xs.foldl (fun best y => if key y < key best then y else best) x)

/-- `ORDER BY key DESC LIMIT 1` over a scan, first maximal element. -/
def selectMaxBy {α β : Type} [LinearOrder β] (key : α → β) : List α → Option α
  | [] => none
  | x :: xs => some (xs.foldl (fun best y => if key best < key y then y else best) x)

/-- Number of Assignments of package `pid`
(`SELECT COUNT(*) FROM package_orders WHERE package_id = pid`). -/
def countPkg (db : DB) (pid : Nat) : Nat :=
  (db.package_orders.filter (fun po => decide (po.package_id = pid))).length

/-! ## Consistency guards (`20250325021504_broad_pine.sql`)

`prevent_duplicate_driver_assignment` fires BEFORE UPDATE OF
`assigned_driver_id` ON `orders`; `validate_order_assignment` fires BEFORE
INSERT OR UPDATE ON `package_orders` and, as a side effect, propagates the
package driver onto the order, which in turn fires
`prevent_duplicate_driver_assignment` (an UPDATE statement that sets
`assigned_driver_id` triggers it regardless of the value).  The
`unique_order_assignment` UNIQUE (order_id) constraint is checked when the
row is actually written, after the BEFORE trigger. -/

/-- `prevent_duplicate_driver_assignment()` of broad_pine: reject a NEW
orders row whose non-NULL `assigned_driver_id` is already carried by a
different order with the same `date(estimated_delivery)`. -/
def prevent_duplicate_driver_assignment (db : DB) (new : OrderRow) : Except PgError Unit :=
  match new.assigned_driver_id with
  | none => .ok ()
  | some _ =>
    if db.orders.any (fun o => decide (o.id ≠ new.id) &&
        sqlEqOpt o.assigned_driver_id new.assigned_driver_id &&
        decide (o.estimated_delivery_date = new.estimated_delivery_date)) then
      .error (.driverDoubleBooked new.id)
    else
      .ok ()

/-- `validate_driver_status()` of white_bar, the body of the
`enforce_active_driver` BEFORE INSERT OR UPDATE trigger on `orders`: a
non-NULL `NEW.assigned_driver_id` must reference a `drivers` row with
`status = true`, else `RAISE 'Orders can only be assigned to active
drivers'`. -/
def validate_driver_status (db : DB) (new : OrderRow) : Except PgError Unit :=
  match new.assigned_driver_id with
  | none => .ok ()
  | some d =>
    if db.drivers.any (fun dr => decide (dr.id = d) && dr.status) then .ok ()
    else .error .inactiveDriver

/-- The statement `UPDATE orders SET assigned_driver_id = v WHERE id = oid`,
including the BEFORE UPDATE trigger cascade in PostgreSQL's alphabetical
trigger-name order: `enforce_active_driver` (fires on every orders update),
then `enforce_unique_driver_assignment` (fires on UPDATE OF
assigned_driver_id).  `generate_package_for_order` does not fire: its
column list is status, facility_id, estimated_delivery. -/
def setOrderDriver (db : DB) (oid : Nat) (v : Option Nat) : Except PgError DB :=
  match db.orders.find? (fun o => decide (o.id = oid)) with
  | none => .ok db
  | some o =>
    let new := { o with assigned_driver_id := v }
    match validate_driver_status db new with
    | .error e => .error e
    | .ok _ =>
      match prevent_duplicate_driver_assignment db new with
      | .error e => .error e
      | .ok _ =>
        .ok { db with orders := db.orders.map (fun r => if r.id = oid then new else r) }

/-- `validate_order_assignment()` of broad_pine, the BEFORE INSERT OR UPDATE
trigger body on `package_orders`: reject when the order already sits in a
different package; reject when the order's already-set driver differs from
the package's (non-NULL) driver; then propagate the package driver onto the
order (`UPDATE orders SET assigned_driver_id = ...`), which cascades into
`prevent_duplicate_driver_assignment`.  Returns the state after the
propagation side effect. -/
def validate_order_assignment (db : DB) (new : PackageOrderRow) : Except PgError DB :=
  if db.package_orders.any (fun po => decide (po.order_id = new.order_id) &&
      decide (po.package_id ≠ new.package_id)) then
    .error (.orderAlreadyAssigned new.order_id)
  else if db.orders.any (fun o => decide (o.id = new.order_id) &&
      db.driver_packages.any (fun dp => decide (dp.id = new.package_id) &&
        sqlNeOpt o.assigned_driver_id dp.driver_id)) then
    .error (.driverMismatch new.order_id)
  else
    let v := (db.driver_packages.find? (fun dp => decide (dp.id = new.package_id))).bind
      (fun dp => dp.driver_id)
    setOrderDriver db new.order_id v

/-- `INSERT INTO package_orders` of one row: BEFORE trigger
(`validate_order_assignment`), then the `unique_order_assignment`
UNIQUE (order_id) constraint, then the append. -/
def insertPackageOrder (db : DB) (new : PackageOrderRow) : Except PgError DB :=
  match validate_order_assignment db new with
  | .error e => .error e
  | .ok db1 =>
    if db1.package_orders.any (fun po => decide (po.order_id = new.order_id)) then
      .error .uniqueViolation
    else
      .ok { db1 with package_orders := db1.package_orders ++ [new] }

/-- `UPDATE package_orders` of the row whose id is `new.id`, replacing it by
`new`: BEFORE trigger, then the UNIQUE (order_id) constraint over the other
rows, then the in-place replacement. -/
def updatePackageOrder (db : DB) (new : PackageOrderRow) : Except PgError DB :=
  if db.package_orders.any (fun po => decide (po.id = new.id)) then
    match validate_order_assignment db new with
    | .error e => .error e
    | .ok db1 =>
      if db1.package_orders.any (fun po => decide (po.id ≠ new.id) &&
          decide (po.order_id = new.order_id)) then
        .error .uniqueViolation
      else
        .ok { db1 with package_orders :=
          db1.package_orders.map (fun po => if po.id = new.id then new else po) }
  else
    .ok db

/-! ## Package creation and the unassigned-package alert
(`20250325010959_crystal_ocean.sql`)

`notify_unassigned_packages` fires AFTER INSERT ON `driver_packages` WHEN
`NEW.driver_id IS NULL` and appends an `unassigned_package_alert` log row
referencing the new package, so every insertion of a driverless package
carries the alert with it. -/

/-- Insert a `driver_packages` row (fresh id from `nextId`), firing the
`notify_unassigned_packages` AFTER INSERT trigger when the driver is NULL.
Returns the new state and the new package id (`RETURNING id`). -/
def insertDriverPackage (db : DB) (driver : Option Nat) (facility : Nat)
    (date : Nat) (status : PkgStatus) : DB × Nat :=
  let pid := db.nextId
  let row : DriverPackageRow :=
    { id := pid, driver_id := driver, facility_id := facility,
      package_date := date, status := status, created_at := pid }
  let db1 := { db with driver_packages := db.driver_packages ++ [row],
                       nextId := db.nextId + 1 }
  match driver with
  | some _ => (db1, pid)
  | none =>
    ({ db1 with package_logs := db1.package_logs ++
        [{ package_id := some pid, event_type := .unassigned_package_alert,
           detail_facility := some facility, detail_order := none,
           detail_driver := none, detail_date := some date,
           detail_error := none }] }, pid)

/-! ## Per-order path (`src/unnamed/part_003`) -/

/-- `find_available_driver(facility_id, delivery_date, delivery_time)`:
among active drivers serving the facility that do not already have a full
(≥ 15 Assignments) package for the date, pick the one with the fewest
currently-assigned orders across that date's packages (`ORDER BY count ASC
LIMIT 1`; ties resolved by scan order, the SQL specifies no further key). -/
def find_available_driver (db : DB) (facility_id : Nat) (delivery_date : Nat) :
    Option Nat :=
  let load := fun (d : DriverRow) =>
    (db.driver_packages.filter (fun dp => sqlEqOpt dp.driver_id (some d.id) &&
        decide (dp.package_date = delivery_date))).foldl
      (fun acc dp => acc + countPkg db dp.id) 0
  let eligible := db.drivers.filter (fun d => d.status &&
    db.facility_drivers.any (fun fd => decide (fd.driver_id = d.id) &&
      decide (fd.facility_id = facility_id)) &&
    ! db.driver_packages.any (fun dp => sqlEqOpt dp.driver_id (some d.id) &&
        decide (dp.package_date = delivery_date) && decide (15 ≤ countPkg db dp.id)))
  (selectMinBy load eligible).map (fun d => d.id)

/-- Lines 91–138 of `handle_order_package()` in part_003: find the newest
non-full package of the available driver for the date (`ORDER BY created_at
DESC LIMIT 1`; the SQL `=` between the two nullable driver columns never
matches when no driver was found), else create a package for the driver,
else create a driverless `pending` package.  Returns the state and the
package id. -/
def findOrCreatePackage (db : DB) (facility_id delivery_date : Nat)
    (available_driver_id : Option Nat) : DB × Nat :=
  let candidates := db.driver_packages.filter (fun dp =>
    sqlEqOpt dp.driver_id available_driver_id &&
    decide (dp.package_date = delivery_date) && decide (countPkg db dp.id < 15))
  match (selectMaxBy (fun dp => dp.created_at) candidates).map (fun dp => dp.id) with
  | some pid => (db, pid)
  | none =>
    match available_driver_id with
    | some d => insertDriverPackage db (some d) facility_id delivery_date .assigned
    | none => insertDriverPackage db none facility_id delivery_date .pending

/-- `handle_order_package()` of part_003, the BEFORE INSERT OR UPDATE trigger
body on `orders`: skip unless the NEW row is `processing` with a facility;
no-op when the order already has an Assignment; otherwise find a driver,
find the newest non-full package of that driver for the date (SQL `=`
between the two nullable driver columns, hence never matched when no driver
was found), else create a package (driverless and `pending` when no driver);
insert the Assignment; set NEW's driver; log `order_assigned`.  The
`sequence_number` subquery's `WHERE package_id = package_id` compares the
column with itself (the unqualified name resolves to the column on both
sides), so the MAX ranges over the whole `package_orders` table.  Returns
the updated state together with the NEW row to be written. -/
def handle_order_package (db : DB) (new : OrderRow) : Except PgError (DB × OrderRow) :=
  if new.status ≠ .processing then .ok (db, new)
  else
    match new.facility_id with
    | none => .ok (db, new)
    | some facility_id =>
      let delivery_date := new.estimated_delivery_date
      match db.package_orders.find? (fun po => decide (po.order_id = new.id)) with
      | some _ => .ok (db, new)
      | none =>
        let available_driver_id := find_available_driver db facility_id delivery_date
        let created := findOrCreatePackage db facility_id delivery_date available_driver_id
        let db1 := created.1
        let pid := created.2
        let seq := (db1.package_orders.map (fun po => po.sequence_number)).foldl max 0 + 1
        let poRow : PackageOrderRow :=
          { id := db1.nextId, package_id := pid, order_id := new.id,
            sequence_number := seq }
        match insertPackageOrder { db1 with nextId := db1.nextId + 1 } poRow with
        | .error e => .error e
        | .ok db2 =>
          let new1 :=
            match available_driver_id with
            | some d => { new with assigned_driver_id := some d }
            | none => new
          let db3 := { db2 with package_logs := db2.package_logs ++
            [{ package_id := some pid, event_type := .order_assigned,
               detail_facility := some facility_id, detail_order := some new.id,
               detail_driver := available_driver_id, detail_date := none,
               detail_error := none }] }
          .ok (db3, new1)

/-- `AssignOrder(orderID)`: re-submit the stored order row through the
`generate_package_for_order` trigger.  An exception raised by the trigger
aborts the whole statement, leaving the state unchanged; on success the
returned NEW row is written back to `orders`. -/
def assignOrder (db : DB) (oid : Nat) : DB :=
  match db.orders.find? (fun o => decide (o.id = oid)) with
  | none => db
  | some o =>
    match handle_order_package db o with
    | .error _ => db
    | .ok (db1, new) =>
      { db1 with orders := db1.orders.map (fun r => if r.id = oid then new else r) }

/-! ## Facility locator (`20250324060912_frosty_union.sql`)

`calculate_distance` is the haversine formula over floats; it enters only
through the `dist` parameter below. -/

/-- `find_nearest_facility(order_lat, order_lon, delivery_time)`: among
facilities with `status = true` whose `[opening_hour, close_hour]` interval
contains the delivery time-of-day, the one minimizing
`calculate_distance(order, facility)` (`ORDER BY ... LIMIT 1`; the SQL has
no further ORDER BY key, so ties fall to scan order); NULL when the
filtered set is empty. -/
def find_nearest_facility (dist : Rat × Rat → Rat × Rat → Rat) (db : DB)
    (order_lat order_lon : Rat) (delivery_time : Nat) : Option Nat :=
  let open_facilities := db.facilities.filter (fun f => f.status &&
    decide (f.opening_hour ≤ delivery_time) && decide (delivery_time ≤ f.close_hour))
  (selectMinBy (fun f => dist (order_lat, order_lon) (f.latitude, f.longitude))
    open_facilities).map (fun f => f.id)

/-- The Facility Locator as the specification words it (spec §4.2), for
comparison with `find_nearest_facility`: same filter, minimal distance, but
ties broken by lowest facility id. -/
def find_nearest_facility_specVersion (dist : Rat × Rat → Rat × Rat → Rat) (db : DB)
    (order_lat order_lon : Rat) (delivery_time : Nat) : Option Nat :=
  let open_facilities := db.facilities.filter (fun f => f.status &&
    decide (f.opening_hour ≤ delivery_time) && decide (delivery_time ≤ f.close_hour))
  let better := fun (f best : FacilityRow) =>
    dist (order_lat, order_lon) (f.latitude, f.longitude) <
      dist (order_lat, order_lon) (best.latitude, best.longitude) ∨
    (dist (order_lat, order_lon) (f.latitude, f.longitude) =
      dist (order_lat, order_lon) (best.latitude, best.longitude) ∧ f.id < best.id)
  match open_facilities with
  | [] => none
  | x :: xs => some (xs.foldl (fun best f => if better f best then f else best) x).id

/-- `assign_nearest_facility()` of frosty_union, the BEFORE INSERT OR UPDATE
trigger body on `orders`: the local variables `shipping_lat` and
`shipping_lon` are declared but never assigned in the source (geocoding is
left to "application code"), so they are always NULL and the branch taken is
always the fallback `SELECT id FROM facilities WHERE status = true LIMIT 1`.
Returns the NEW row. -/
def assign_nearest_facility (dist : Rat × Rat → Rat × Rat → Rat) (db : DB)
    (new : OrderRow) : OrderRow :=
  let shipping_lat : Option Rat := none
  let shipping_lon : Option Rat := none
  match shipping_lat, shipping_lon with
  | some la, some lo =>
    { new with facility_id :=
        find_nearest_facility dist db la lo new.estimated_delivery_time }
  | _, _ =>
    { new with facility_id := (db.facilities.find? (fun f => f.status)).map (fun f => f.id) }

/-! ## Route sequencer (`20250325010959_crystal_ocean.sql`)

`optimize_route(package_id)`: the starting position is the facility of the
package; the selection query joins `orders` but feeds
`calculate_route_distance` with `random() * 90` / `random() * 180`
("placeholder" per the source comment) instead of the joined order's
coordinates, and `current_lat`/`current_lon` are never reassigned inside the
loop.  The `random()` draws are modelled by the `oracle` parameter: the
selection of iteration with counter `ctr` keys row `i` of the unsequenced
scan by `dist current (oracle (ctr + i))`. -/

/-- One `UPDATE package_orders SET sequence_number = seq WHERE package_id =
pid AND order_id = oid`. -/
def optStep (db : DB) (pid oid seq : Nat) : DB :=
  { db with package_orders := db.package_orders.map (fun po =>
      if po.package_id = pid ∧ po.order_id = oid then
        { po with sequence_number := seq } else po) }

/-- The unsequenced Assignments of the package as the selection query scans
them (`JOIN orders` is a semi-join under the table's foreign key). -/
def unsequencedRows (db : DB) (pid : Nat) : List PackageOrderRow :=
  db.package_orders.filter (fun po => decide (po.package_id = pid) &&
    decide (po.sequence_number = 0) &&
    db.orders.any (fun o => decide (o.id = po.order_id)))

/-- The WHILE loop of `optimize_route`, with the fuel bounding the number of
iterations (the caller passes the number of unsequenced rows, which the loop
strictly decreases). -/
def optimize_route_loop (dist : Rat × Rat → Rat × Rat → Rat)
    (oracle : Nat → Rat × Rat) (current : Rat × Rat) (pid : Nat) :
    Nat → Nat → Nat → DB → DB
  | 0, _, _, db => db
  | fuel + 1, seq, ctr, db =>
    if db.package_orders.any (fun po => decide (po.package_id = pid) &&
        decide (po.sequence_number = 0)) then
      let unseq := unsequencedRows db pid
      match selectMinBy (fun p => dist current (oracle (ctr + p.1))) unseq.enum with
      | none => db
      | some (_, po) =>
        optimize_route_loop dist oracle current pid fuel (seq + 1)
          (ctr + unseq.length) (optStep db pid po.order_id seq)
    else db

/-- `optimize_route(package_id)`. -/
def optimize_route (dist : Rat × Rat → Rat × Rat → Rat) (oracle : Nat → Rat × Rat)
    (db : DB) (pid : Nat) : DB :=
  let current : Rat × Rat :=
    match (db.driver_packages.find? (fun dp => decide (dp.id = pid))).bind
        (fun dp => db.facilities.find? (fun f => decide (f.id = dp.facility_id))) with
    | some f => (f.latitude, f.longitude)
    | none => (0, 0)
  optimize_route_loop dist oracle current pid
    (db.package_orders.filter (fun po => decide (po.package_id = pid) &&
      decide (po.sequence_number = 0))).length 1 0 db

/-! ## Batch path (`20250325020803_rough_pine.sql`)

`generate_driver_packages(shift_date)` (the final CREATE OR REPLACE): for
each active facility, inside a `BEGIN ... EXCEPTION` block (so an error
rolls the facility's work back to block entry and only the error log
survives): count the candidate orders; skip the facility when none; loop
over the eligible drivers creating one `assigned` package each, filling it
with up to 15 candidates, until no candidates remain; then create `pending`
driverless packages of up to 15 candidates while candidates remain. -/

/-- The candidate orders of a facility for the date: `status='processing'`,
the facility resolved to this one, no assigned driver.  (The
`FOR UPDATE SKIP LOCKED` locking is a no-op in this sequential model.) -/
def candidateOrders (db : DB) (facility_id date : Nat) : List OrderRow :=
  db.orders.filter (fun o => decide (o.facility_id = some facility_id) &&
    decide (o.estimated_delivery_date = date) && decide (o.status = OrderStatus.processing) &&
    decide (o.assigned_driver_id = none))

/-- The driver cursor of the batch: active drivers serving the facility with
no `pending`/`assigned`/`in_progress` package for the date. -/
def eligibleDrivers (db : DB) (facility_id date : Nat) : List Nat :=
  (db.drivers.filter (fun d => d.status &&
    db.facility_drivers.any (fun fd => decide (fd.driver_id = d.id) &&
      decide (fd.facility_id = facility_id)) &&
    ! db.driver_packages.any (fun dp => sqlEqOpt dp.driver_id (some d.id) &&
      decide (dp.package_date = date) &&
      decide (dp.status = PkgStatus.pending ∨ dp.status = PkgStatus.assigned ∨
        dp.status = PkgStatus.in_progress)))).map (fun d => d.id)

/-- The multi-row `INSERT INTO package_orders ... SELECT pid, id, 0 FROM
orders_to_assign`: one guarded insert per selected order, aborting the whole
statement on the first trigger or constraint error. -/
def insertAssignments (db : DB) (pid : Nat) : List OrderRow → Except PgError DB
  | [] => .ok db
  | o :: os =>
    match insertPackageOrder { db with nextId := db.nextId + 1 }
        { id := db.nextId, package_id := pid, order_id := o.id, sequence_number := 0 } with
    | .error e => .error e
    | .ok db1 => insertAssignments db1 pid os

/-- The multi-row `UPDATE orders SET assigned_driver_id = d FROM
package_orders po WHERE po.package_id = pid AND po.order_id = o.id`: one
guarded driver update per assignment of the package. -/
def updateOrdersDriver (db : DB) (pid d : Nat) : List Nat → Except PgError DB
  | [] => .ok db
  | oid :: oids =>
    match setOrderDriver db oid (some d) with
    | .error e => .error e
    | .ok db1 => updateOrdersDriver db1 pid d oids

/-- One iteration of the driver FOR loop: create an `assigned` package for
the driver, fill it with up to 15 candidates, update the assigned orders'
driver, optimize the route. -/
def driverIteration (dist : Rat × Rat → Rat × Rat → Rat) (oracle : Nat → Rat × Rat)
    (db : DB) (facility_id date d : Nat) : Except PgError DB :=
  let created := insertDriverPackage db (some d) facility_id date .assigned
  match insertAssignments created.1 created.2
      ((candidateOrders created.1 facility_id date).take 15) with
  | .error e => .error e
  | .ok db2 =>
    match updateOrdersDriver db2 created.2 d
        ((db2.package_orders.filter (fun po => decide (po.package_id = created.2))).map
          (fun po => po.order_id)) with
    | .error e => .error e
    | .ok db3 => .ok (optimize_route dist oracle db3 created.2)

/-- The driver FOR loop with its `EXIT WHEN order_count = 0`. -/
def driverLoop (dist : Rat × Rat → Rat × Rat → Rat) (oracle : Nat → Rat × Rat)
    (facility_id date : Nat) : List Nat → DB → Except PgError DB
  | [], db => .ok db
  | d :: ds, db =>
    match driverIteration dist oracle db facility_id date d with
    | .error e => .error e
    | .ok db1 =>
      if (candidateOrders db1 facility_id date).length = 0 then .ok db1
      else driverLoop dist oracle facility_id date ds db1

/-- One iteration of the pending WHILE loop: create a driverless `pending`
package (which fires the alert trigger), fill it with up to 15 candidates,
optimize the route. -/
def pendingCycle (dist : Rat × Rat → Rat × Rat → Rat) (oracle : Nat → Rat × Rat)
    (db : DB) (facility_id date : Nat) : Except PgError DB :=
  let created := insertDriverPackage db none facility_id date .pending
  match insertAssignments created.1 created.2
      ((candidateOrders created.1 facility_id date).take 15) with
  | .error e => .error e
  | .ok db2 => .ok (optimize_route dist oracle db2 created.2)

/-- The pending WHILE loop (`WHILE order_count > 0`), fuel-indexed: `none`
means the fuel ran out before the loop finished. -/
def pendingLoop (dist : Rat × Rat → Rat × Rat → Rat) (oracle : Nat → Rat × Rat)
    (facility_id date : Nat) : Nat → DB → Option (Except PgError DB)
  | 0, _ => none
  | fuel + 1, db =>
    if (candidateOrders db facility_id date).length = 0 then some (.ok db)
    else
      match pendingCycle dist oracle db facility_id date with
      | .error e => some (.error e)
      | .ok db1 => pendingLoop dist oracle facility_id date fuel db1

/-- Candidates that do not yet sit in any package: the quantity the pending
loop can still make progress on (each successful cycle claims at least one). -/
def unassignedCount (db : DB) (facility_id date : Nat) : Nat :=
  ((candidateOrders db facility_id date).filter (fun o =>
    ! db.package_orders.any (fun po => decide (po.order_id = o.id)))).length

/-- The per-facility `BEGIN ... END` block body (without the EXCEPTION
clause): skip when there are no candidates; run the driver loop; run the
pending loop.  The pending loop receives fuel `unassignedCount + 1`, which
suffices (proved below), so the fallback arm is unreachable. -/
def facilityBody (dist : Rat × Rat → Rat × Rat → Rat) (oracle : Nat → Rat × Rat)
    (db : DB) (facility_id date : Nat) : Except PgError DB :=
  if (candidateOrders db facility_id date).length = 0 then .ok db
  else
    match driverLoop dist oracle facility_id date (eligibleDrivers db facility_id date) db with
    | .error e => .error e
    | .ok db1 =>
      match pendingLoop dist oracle facility_id date
          (unassignedCount db1 facility_id date + 1) db1 with
      | some r => r
      | none => .ok db1

/-- The `package_generation_error` log row of the EXCEPTION handler. -/
def genErrorLog (facility_id : Nat) (e : PgError) : PackageLogRow :=
  { package_id := none, event_type := .package_generation_error,
    detail_facility := some facility_id, detail_order := none,
    detail_driver := none, detail_date := none, detail_error := some e }

/-- One facility of the outer FOR loop: on error, roll back to block entry
and append only the error log (PL/pgSQL EXCEPTION semantics). -/
def stepFacility (dist : Rat × Rat → Rat × Rat → Rat) (oracle : Nat → Rat × Rat)
    (date : Nat) (db : DB) (facility_id : Nat) : DB :=
  match facilityBody dist oracle db facility_id date with
  | .ok db1 => db1
  | .error e =>
    { db with package_logs := db.package_logs ++ [genErrorLog facility_id e] }

/-- The outer FOR loop over a list of facility ids. -/
def runFacilities (dist : Rat × Rat → Rat × Rat → Rat) (oracle : Nat → Rat × Rat)
    (date : Nat) (fs : List Nat) (db : DB) : DB :=
  fs.foldl (stepFacility dist oracle date) db

/-- `generate_driver_packages(shift_date)`: every active facility, failures
isolated per facility. -/
def generate_driver_packages (dist : Rat × Rat → Rat × Rat → Rat)
    (oracle : Nat → Rat × Rat) (db : DB) (date : Nat) : DB :=
  runFacilities dist oracle date
    ((db.facilities.filter (fun f => f.status)).map (fun f => f.id)) db

/-! ## Invariants and reachability -/

/-- Invariant 1: no two Assignments reference the same order. -/
def Inv1 (db : DB) : Prop :=
  db.package_orders.Pairwise (fun a b => a.order_id ≠ b.order_id)

/-- Invariant 2: every package holds at most `MAX_PACKAGE_SIZE = 15`
Assignments. -/
def Cap15 (db : DB) : Prop :=
  ∀ pid, countPkg db pid ≤ 15

/-- Freshness of `nextId` over the package-side tables: every existing
package id and Assignment's package reference is below the id counter, so a
freshly drawn package id carries no Assignments. -/
def FreshIds (db : DB) : Prop :=
  (∀ dp ∈ db.driver_packages, dp.id < db.nextId) ∧
  (∀ po ∈ db.package_orders, po.package_id < db.nextId)

/-- A mutation performed by a collaborator outside the dispatch engine
(order intake, facility/driver administration): it may rewrite `orders`,
`facilities`, `drivers` and `facility_drivers` at will but does not touch
the engine-owned package tables, the log, or the id counter. -/
def ExternalStep (db db1 : DB) : Prop :=
  db1.driver_packages = db.driver_packages ∧
  db1.package_orders = db.package_orders ∧
  db1.package_logs = db.package_logs ∧
  db1.nextId = db.nextId

/-- The empty initial database. -/
def emptyDB : DB :=
  { orders := [], facilities := [], drivers := [], facility_drivers := [],
    driver_packages := [], package_orders := [], package_logs := [], nextId := 0 }

/-- States reachable from the empty database through collaborator mutations
and the engine's entry points: `AssignOrder`, `GenerateDriverPackages`, and
direct driver updates of an order. -/
inductive Reachable : DB → Prop where
  | init : Reachable emptyDB
  | external {db db1 : DB} : Reachable db → ExternalStep db db1 → Reachable db1
  | assign {db : DB} (oid : Nat) : Reachable db → Reachable (assignOrder db oid)
  | batch {db : DB} (dist : Rat × Rat → Rat × Rat → Rat) (oracle : Nat → Rat × Rat)
      (date : Nat) :
      Reachable db → Reachable (generate_driver_packages dist oracle db date)
  | setDriver {db : DB} (oid : Nat) (v : Option Nat) : Reachable db →
      Reachable (match setOrderDriver db oid v with | .ok db1 => db1 | .error _ => db)

/-- `true` on `Except.ok`. -/
def exceptOk {ε α : Type} : Except ε α → Bool
  | .ok _ => true
  | .error _ => false

/-! ## Concrete states used to evaluate the functions

`discreteDist` instantiates the distance parameter for evaluation: like the
haversine, it assigns equal values to equal coordinate pairs (which is all
the tie scenarios below rely on). -/

def discreteDist : Rat × Rat → Rat × Rat → Rat := fun a b => if a = b then 0 else 1

def oracleZero : Nat → Rat × Rat := fun _ => (0, 0)

/-- A facility open 08:00–09:00 only. -/
def facC4 : FacilityRow :=
  { id := 1, status := true, latitude := 52, longitude := 4,
    opening_hour := 480, close_hour := 540 }

/-- An order requesting noon delivery, facility not yet resolved. -/
def ordC4 : OrderRow :=
  { id := 1, status := .processing, facility_id := none, assigned_driver_id := none,
    estimated_delivery_date := 5, estimated_delivery_time := 720,
    latitude := some 52, longitude := some 4 }

def dbC4 : DB := { emptyDB with facilities := [facC4], orders := [ordC4] }

/-- Two always-open facilities at the same coordinates, scanned with the
higher id first. -/
def facTie2 : FacilityRow :=
  { id := 2, status := true, latitude := 52, longitude := 4,
    opening_hour := 0, close_hour := 1440 }

def facTie1 : FacilityRow :=
  { id := 1, status := true, latitude := 52, longitude := 4,
    opening_hour := 0, close_hour := 1440 }

def dbC5 : DB := { emptyDB with facilities := [facTie2, facTie1] }

/-- A processing order resolved to facility 1, service date 5, no driver. -/
def ordF1 : OrderRow :=
  { id := 1, status := .processing, facility_id := some 1, assigned_driver_id := none,
    estimated_delivery_date := 5, estimated_delivery_time := 720,
    latitude := some 52, longitude := some 4 }

/-- An always-open facility with id 1. -/
def facOpen1 : FacilityRow :=
  { id := 1, status := true, latitude := 52, longitude := 4,
    opening_hour := 0, close_hour := 1440 }

/-- One candidate order for facility 1 on date 5 and no drivers at all. -/
def dbC8 : DB := { emptyDB with orders := [ordF1], facilities := [facOpen1], nextId := 20 }

/-- What one pending-package cycle of the batch produces on `dbC8`. -/
def dbC8after : DB :=
  match pendingCycle discreteDist oracleZero dbC8 1 5 with
  | .ok db1 => db1
  | .error _ => emptyDB

/-- An `assigned` package of driver 7 for service date 5, with no order
rows referencing driver 7. -/
def pkgC9 : DriverPackageRow :=
  { id := 3, driver_id := some 7, facility_id := 1, package_date := 5,
    status := .assigned, created_at := 3 }

/-- Driver 7 is an active driver (so the `enforce_active_driver` trigger
passes) who already has an active `assigned` package for date 5. -/
def dbC9 : DB :=
  { emptyDB with orders := [ordF1], drivers := [({ id := 7, status := true } : DriverRow)], driver_packages := [pkgC9], nextId := 10 }

/-- Rewrite every order's coordinates by a function of the order id,
leaving all other columns unchanged (used to state that the route sequencer
never consults the stop coordinates). -/
def setOrderCoords (f : Nat → Option Rat × Option Rat) (db : DB) : DB :=
  { db with orders := db.orders.map (fun o =>
      { o with latitude := (f o.id).1, longitude := (f o.id).2 }) }

/-- A second always-open facility, id 2, with a candidate order and an
active driver 9 who serves it. -/
def facOpen2 : FacilityRow :=
  { id := 2, status := true, latitude := 50, longitude := 4,
    opening_hour := 0, close_hour := 1440 }

def ordF2 : OrderRow :=
  { id := 2, status := .processing, facility_id := some 2, assigned_driver_id := none,
    estimated_delivery_date := 5, estimated_delivery_time := 700,
    latitude := some 50, longitude := some 4 }

/-- Facility 1 has a candidate order and no drivers (its batch body fails);
facility 2 has a candidate order and an eligible driver (its batch body
succeeds). -/
def dbC10 : DB :=
  { emptyDB with
    orders := [ordF1, ordF2], facilities := [facOpen1, facOpen2],
    drivers := [{ id := 9, status := true }],
    facility_drivers := [{ facility_id := 2, driver_id := 9 }], nextId := 30 }

/-- A collaborator-produced state: one candidate order and one facility,
reachable from the empty database by an external step. -/
def dbExt : DB := { emptyDB with orders := [ordF1], facilities := [facOpen1] }

/-- Equality of all state components except `orders` (the shape of every
mutation that only touches the orders table). -/
def SameExceptOrders (db db1 : DB) : Prop :=
  db1.facilities = db.facilities ∧ db1.drivers = db.drivers ∧
  db1.facility_drivers = db.facility_drivers ∧
  db1.driver_packages = db.driver_packages ∧
  db1.package_orders = db.package_orders ∧
  db1.package_logs = db.package_logs ∧ db1.nextId = db.nextId

/-- The identity of an Assignment row apart from its sequence number. -/
def poProj (po : PackageOrderRow) : Nat × Nat × Nat :=
  (po.id, po.package_id, po.order_id)

/-! ## Helper lemmas -/

theorem foldl_min_spec {α β : Type} [LinearOrder β] (key : α → β) (xs : List α) (x : α) :
    (xs.foldl (fun best y => if key y < key best then y else best) x = x ∨
      xs.foldl (fun best y => if key y < key best then y else best) x ∈ xs) ∧
    key (xs.foldl (fun best y => if key y < key best then y else best) x) ≤ key x ∧
    ∀ y ∈ xs, key (xs.foldl (fun best y => if key y < key best then y else best) x) ≤ key y := by
  induction xs generalizing x with
  | nil => exact ⟨Or.inl rfl, le_refl _, by intro y hy; cases hy⟩
  | cons z zs ih =>
    have hstep : (z :: zs).foldl (fun best y => if key y < key best then y else best) x =
        zs.foldl (fun best y => if key y < key best then y else best)
          (if key z < key x then z else x) := rfl
    obtain ⟨hmem, hle, hall⟩ := ih (if key z < key x then z else x)
    have hlex : key (if key z < key x then z else x) ≤ key x := by
      by_cases h : key z < key x
      · simp [h]; exact le_of_lt h
      · simp [h]
    have hlez : key (if key z < key x then z else x) ≤ key z := by
      by_cases h : key z < key x
      · simp [h]
      · simp [h]; exact le_of_not_lt h
    refine ⟨?_, ?_, ?_⟩
    · rw [hstep]
      rcases hmem with h | h
      · rw [h]
        by_cases hc : key z < key x
        · simp [hc]
        · simp [hc]
      · exact Or.inr (List.mem_cons_of_mem _ h)
    · rw [hstep]; exact le_trans hle hlex
    · intro y hy
      rw [hstep]
      rcases List.mem_cons.mp hy with rfl | hy
      · exact le_trans hle hlez
      · exact hall y hy

theorem selectMinBy_mem {α β : Type} [LinearOrder β] (key : α → β) (l : List α) (x : α)
    (h : selectMinBy key l = some x) : x ∈ l := by
  cases l with
  | nil => cases h
  | cons a as =>
    simp only [selectMinBy, Option.some.injEq] at h
    obtain ⟨hmem, _, _⟩ := foldl_min_spec key as a
    rcases hmem with hm | hm
    · rw [h] at hm; rw [hm]; exact List.mem_cons_self _ _
    · rw [h] at hm; exact List.mem_cons_of_mem _ hm

theorem selectMinBy_le {α β : Type} [LinearOrder β] (key : α → β) (l : List α) (x : α)
    (h : selectMinBy key l = some x) : ∀ y ∈ l, key x ≤ key y := by
  cases l with
  | nil => cases h
  | cons a as =>
    simp only [selectMinBy, Option.some.injEq] at h
    obtain ⟨_, hle, hall⟩ := foldl_min_spec key as a
    intro y hy
    rcases List.mem_cons.mp hy with rfl | hy
    · rw [← h]; exact hle
    · rw [← h]; exact hall y hy

theorem selectMinBy_eq_none {α β : Type} [LinearOrder β] (key : α → β) (l : List α) :
    selectMinBy key l = none ↔ l = [] := by
  cases l with
  | nil => simp [selectMinBy]
  | cons a as => simp [selectMinBy]

theorem length_filter_mono {α : Type} (l : List α) (p q : α → Bool)
    (h : ∀ a ∈ l, p a = true → q a = true) :
    (l.filter p).length ≤ (l.filter q).length := by
  induction l with
  | nil => simp
  | cons a t ih =>
    have ht : ∀ b ∈ t, p b = true → q b = true := fun b hb => h b (List.mem_cons_of_mem a hb)
    by_cases hp : p a = true
    · have hq := h a (List.mem_cons_self a t) hp
      simp only [List.filter_cons, hp, hq, if_true]
      exact Nat.succ_le_succ (ih ht)
    · have hp' : p a = false := by simpa using hp
      simp only [List.filter_cons, hp']
      by_cases hq : q a = true
      · simp only [hq, if_true]
        exact le_trans (ih ht) (Nat.le_succ _)
      · have hq' : q a = false := by simpa using hq
        simp only [hq']
        simpa using ih ht

theorem length_filter_lt {α : Type} (l : List α) (p q : α → Bool)
    (h : ∀ a ∈ l, p a = true → q a = true) (x : α) (hx : x ∈ l)
    (hqx : q x = true) (hpx : p x = false) :
    (l.filter p).length < (l.filter q).length := by
  induction l with
  | nil => cases hx
  | cons a t ih =>
    have ht : ∀ b ∈ t, p b = true → q b = true := fun b hb => h b (List.mem_cons_of_mem a hb)
    rcases List.mem_cons.mp hx with rfl | hxt
    · simp only [List.filter_cons, hpx, hqx, if_true]
      exact Nat.lt_succ_of_le (length_filter_mono t p q ht)
    · by_cases hp : p a = true
      · have hq := h a (List.mem_cons_self a t) hp
        simp only [List.filter_cons, hp, hq, if_true]
        exact Nat.succ_lt_succ (ih ht hxt)
      · have hp' : p a = false := by simpa using hp
        simp only [List.filter_cons, hp']
        by_cases hq : q a = true
        · simp only [hq, if_true]
          exact Nat.lt_succ_of_lt (ih ht hxt)
        · have hq' : q a = false := by simpa using hq
          simp only [hq']
          simpa using ih ht hxt

theorem pairwise_key_unique {α : Type} (f : α → Nat) (l : List α)
    (h : l.Pairwise (fun a b => f a ≠ f b)) :
    ∀ a ∈ l, ∀ b ∈ l, f a = f b → a = b := by
  induction l with
  | nil => intro a ha; cases ha
  | cons c t ih =>
    have hhead := (List.pairwise_cons.mp h).1
    have htail := (List.pairwise_cons.mp h).2
    intro a ha b hb hab
    rcases List.mem_cons.mp ha with rfl | hat
    · rcases List.mem_cons.mp hb with rfl | hbt
      · rfl
      · exact absurd hab (hhead b hbt)
    · rcases List.mem_cons.mp hb with rfl | hbt
      · exact absurd hab.symm (hhead a hat)
      · exact ih htail a hat b hbt hab

theorem map_replace_self {α : Type} (l : List α) (f : α → α)
    (h : ∀ a ∈ l, f a = a) : l.map f = l := by
  induction l with
  | nil => rfl
  | cons a t ih =>
    simp only [List.map_cons, h a (List.mem_cons_self a t)]
    rw [ih (fun b hb => h b (List.mem_cons_of_mem a hb))]

theorem find?_map_pres {α : Type} (p : α → Bool) (f : α → α) (l : List α)
    (h : ∀ a, p (f a) = p a) :
    (l.map f).find? p = (l.find? p).map f := by
  induction l with
  | nil => rfl
  | cons a t ih =>
    simp only [List.map_cons, List.find?_cons]
    rw [h a]
    by_cases hp : p a = true
    · simp [hp]
    · have hp' : p a = false := by simpa using hp
      simp [hp', ih]

/-! ### Structural consequences of the guard functions -/

theorem setOrderDriver_ok_rest {db db1 : DB} {oid : Nat} {v : Option Nat}
    (h : setOrderDriver db oid v = .ok db1) : SameExceptOrders db db1 := by
  unfold setOrderDriver at h
  split at h
  · cases h
    exact ⟨rfl, rfl, rfl, rfl, rfl, rfl, rfl⟩
  · dsimp only at h
    split at h
    · cases h
    · split at h
      · cases h
      · cases h
        exact ⟨rfl, rfl, rfl, rfl, rfl, rfl, rfl⟩

theorem setOrderDriver_ok_orders {db db1 : DB} {oid : Nat} {v : Option Nat}
    (h : setOrderDriver db oid v = .ok db1) :
    db1.orders = db.orders ∨
    ∃ o, db.orders.find? (fun r => decide (r.id = oid)) = some o ∧
      db1.orders = db.orders.map (fun r =>
        if r.id = oid then { o with assigned_driver_id := v } else r) := by
  unfold setOrderDriver at h
  split at h
  · cases h
    exact Or.inl rfl
  · next o hf =>
    dsimp only at h
    split at h
    · cases h
    · split at h
      · cases h
      · cases h
        exact Or.inr ⟨o, hf, rfl⟩

theorem validate_ok_rest {db db1 : DB} {new : PackageOrderRow}
    (h : validate_order_assignment db new = .ok db1) : SameExceptOrders db db1 := by
  unfold validate_order_assignment at h
  by_cases h1 : db.package_orders.any (fun po => decide (po.order_id = new.order_id) &&
      decide (po.package_id ≠ new.package_id)) = true
  · rw [if_pos h1] at h; cases h
  · rw [if_neg h1] at h
    by_cases h2 : db.orders.any (fun o => decide (o.id = new.order_id) &&
        db.driver_packages.any (fun dp => decide (dp.id = new.package_id) &&
          sqlNeOpt o.assigned_driver_id dp.driver_id)) = true
    · rw [if_pos h2] at h; cases h
    · rw [if_neg h2] at h
      exact setOrderDriver_ok_rest h

theorem validate_ok_checks {db db1 : DB} {new : PackageOrderRow}
    (h : validate_order_assignment db new = .ok db1) :
    db.package_orders.any (fun po => decide (po.order_id = new.order_id) &&
      decide (po.package_id ≠ new.package_id)) = false := by
  unfold validate_order_assignment at h
  by_cases h1 : db.package_orders.any (fun po => decide (po.order_id = new.order_id) &&
      decide (po.package_id ≠ new.package_id)) = true
  · rw [if_pos h1] at h; cases h
  · simpa using h1

theorem insertPackageOrder_ok_po {db db1 : DB} {new : PackageOrderRow}
    (h : insertPackageOrder db new = .ok db1) :
    db1.package_orders = db.package_orders ++ [new] := by
  unfold insertPackageOrder at h
  cases hv : validate_order_assignment db new with
  | error e => rw [hv] at h; simp at h
  | ok dbm =>
    rw [hv] at h
    dsimp only at h
    have hrest := validate_ok_rest hv
    by_cases hu : dbm.package_orders.any (fun po => decide (po.order_id = new.order_id)) = true
    · rw [if_pos hu] at h; cases h
    · rw [if_neg hu] at h
      cases h
      simp only []
      rw [hrest.2.2.2.2.1]

theorem insertPackageOrder_ok_rest {db db1 : DB} {new : PackageOrderRow}
    (h : insertPackageOrder db new = .ok db1) :
    db1.facilities = db.facilities ∧ db1.drivers = db.drivers ∧
    db1.facility_drivers = db.facility_drivers ∧
    db1.driver_packages = db.driver_packages ∧
    db1.package_logs = db.package_logs ∧ db1.nextId = db.nextId := by
  unfold insertPackageOrder at h
  cases hv : validate_order_assignment db new with
  | error e => rw [hv] at h; simp at h
  | ok dbm =>
    rw [hv] at h
    dsimp only at h
    have hrest := validate_ok_rest hv
    by_cases hu : dbm.package_orders.any (fun po => decide (po.order_id = new.order_id)) = true
    · rw [if_pos hu] at h; cases h
    · rw [if_neg hu] at h
      cases h
      exact ⟨hrest.1, hrest.2.1, hrest.2.2.1, hrest.2.2.2.1, hrest.2.2.2.2.2.1,
        hrest.2.2.2.2.2.2⟩

theorem insertPackageOrder_ok_fresh {db db1 : DB} {new : PackageOrderRow}
    (h : insertPackageOrder db new = .ok db1) :
    ∀ po ∈ db.package_orders, po.order_id ≠ new.order_id := by
  unfold insertPackageOrder at h
  cases hv : validate_order_assignment db new with
  | error e => rw [hv] at h; simp at h
  | ok dbm =>
    rw [hv] at h
    dsimp only at h
    have hrest := validate_ok_rest hv
    by_cases hu : dbm.package_orders.any (fun po => decide (po.order_id = new.order_id)) = true
    · rw [if_pos hu] at h; cases h
    · intro po hpo
      have : po ∈ dbm.package_orders := by rw [hrest.2.2.2.2.1]; exact hpo
      intro hoid
      exact hu (List.any_eq_true.mpr ⟨po, this, by simpa using hoid⟩)

theorem insertPackageOrder_ok_orders {db db1 : DB} {new : PackageOrderRow}
    (h : insertPackageOrder db new = .ok db1) :
    ∃ dbm, validate_order_assignment db new = .ok dbm ∧ db1.orders = dbm.orders := by
  unfold insertPackageOrder at h
  cases hv : validate_order_assignment db new with
  | error e => rw [hv] at h; simp at h
  | ok dbm =>
    rw [hv] at h
    dsimp only at h
    by_cases hu : dbm.package_orders.any (fun po => decide (po.order_id = new.order_id)) = true
    · rw [if_pos hu] at h; cases h
    · rw [if_neg hu] at h
      cases h
      exact ⟨dbm, rfl, rfl⟩

theorem Inv1_insert {db db1 : DB} {new : PackageOrderRow} (hinv : Inv1 db)
    (h : insertPackageOrder db new = .ok db1) : Inv1 db1 := by
  have hpo := insertPackageOrder_ok_po h
  have hfresh := insertPackageOrder_ok_fresh h
  unfold Inv1 at hinv ⊢
  rw [hpo]
  rw [List.pairwise_append]
  refine ⟨hinv, List.pairwise_singleton _ _, ?_⟩
  intro a ha b hb
  rcases List.mem_singleton.mp hb with rfl
  exact hfresh a ha

theorem countPkg_insert {db db1 : DB} {new : PackageOrderRow}
    (h : insertPackageOrder db new = .ok db1) :
    ∀ pid, countPkg db1 pid =
      countPkg db pid + (if new.package_id = pid then 1 else 0) := by
  intro pid
  unfold countPkg
  rw [insertPackageOrder_ok_po h, List.filter_append]
  by_cases hp : new.package_id = pid
  · simp [hp]
  · simp [hp]

theorem proj_count {l1 l2 : List PackageOrderRow}
    (h : l1.map poProj = l2.map poProj) (pid : Nat) :
    (l1.filter (fun po => decide (po.package_id = pid))).length =
      (l2.filter (fun po => decide (po.package_id = pid))).length := by
  have e1 : (l1.filter (fun po => decide (po.package_id = pid))).length =
      l1.countP (fun po => decide (po.package_id = pid)) :=
    (List.countP_eq_length_filter _ _).symm
  have e2 : (l2.filter (fun po => decide (po.package_id = pid))).length =
      l2.countP (fun po => decide (po.package_id = pid)) :=
    (List.countP_eq_length_filter _ _).symm
  rw [e1, e2]
  have m1 : l1.countP (fun po => decide (po.package_id = pid)) =
      (l1.map poProj).countP (fun t => decide (t.2.1 = pid)) := by
    rw [List.countP_map]; rfl
  have m2 : l2.countP (fun po => decide (po.package_id = pid)) =
      (l2.map poProj).countP (fun t => decide (t.2.1 = pid)) := by
    rw [List.countP_map]; rfl
  rw [m1, m2, h]

theorem proj_any_order {l1 l2 : List PackageOrderRow}
    (h : l1.map poProj = l2.map poProj) (x : Nat) :
    l1.any (fun po => decide (po.order_id = x)) =
      l2.any (fun po => decide (po.order_id = x)) := by
  rw [Bool.eq_iff_iff]
  simp only [List.any_eq_true, decide_eq_true_eq]
  constructor
  · rintro ⟨po, hm, hx⟩
    have hmm : poProj po ∈ l2.map poProj := by
      rw [← h]; exact List.mem_map_of_mem _ hm
    obtain ⟨po2, hm2, hpe⟩ := List.mem_map.mp hmm
    have h22 : po2.order_id = po.order_id := by
      have := congrArg (fun t : Nat × Nat × Nat => t.2.2) hpe
      simpa [poProj] using this
    exact ⟨po2, hm2, h22.trans hx⟩
  · rintro ⟨po, hm, hx⟩
    have hmm : poProj po ∈ l1.map poProj := by
      rw [h]; exact List.mem_map_of_mem _ hm
    obtain ⟨po2, hm2, hpe⟩ := List.mem_map.mp hmm
    have h22 : po2.order_id = po.order_id := by
      have := congrArg (fun t : Nat × Nat × Nat => t.2.2) hpe
      simpa [poProj] using this
    exact ⟨po2, hm2, h22.trans hx⟩

theorem proj_pairwise {l1 l2 : List PackageOrderRow}
    (h : l1.map poProj = l2.map poProj) :
    l1.Pairwise (fun a b => a.order_id ≠ b.order_id) ↔
      l2.Pairwise (fun a b => a.order_id ≠ b.order_id) := by
  have m1 : (l1.map poProj).Pairwise (fun t u => t.2.2 ≠ u.2.2) ↔
      l1.Pairwise (fun a b => a.order_id ≠ b.order_id) := List.pairwise_map
  have m2 : (l2.map poProj).Pairwise (fun t u => t.2.2 ≠ u.2.2) ↔
      l2.Pairwise (fun a b => a.order_id ≠ b.order_id) := List.pairwise_map
  rw [← m1, ← m2, h]

theorem optStep_proj (db : DB) (pid oid seq : Nat) :
    (optStep db pid oid seq).package_orders.map poProj =
      db.package_orders.map poProj := by
  unfold optStep
  simp only [List.map_map]
  apply List.map_congr_left
  intro po _
  by_cases hc : po.package_id = pid ∧ po.order_id = oid
  · simp [hc, poProj]
  · simp [hc, poProj]

theorem optimize_route_loop_rest (dist : Rat × Rat → Rat × Rat → Rat)
    (oracle : Nat → Rat × Rat) (current : Rat × Rat) (pid : Nat) :
    ∀ fuel seq ctr db,
      (optimize_route_loop dist oracle current pid fuel seq ctr db).orders = db.orders ∧
      (optimize_route_loop dist oracle current pid fuel seq ctr db).facilities = db.facilities ∧
      (optimize_route_loop dist oracle current pid fuel seq ctr db).drivers = db.drivers ∧
      (optimize_route_loop dist oracle current pid fuel seq ctr db).facility_drivers =
        db.facility_drivers ∧
      (optimize_route_loop dist oracle current pid fuel seq ctr db).driver_packages =
        db.driver_packages ∧
      (optimize_route_loop dist oracle current pid fuel seq ctr db).package_logs =
        db.package_logs ∧
      (optimize_route_loop dist oracle current pid fuel seq ctr db).nextId = db.nextId ∧
      (optimize_route_loop dist oracle current pid fuel seq ctr db).package_orders.map poProj =
        db.package_orders.map poProj := by
  intro fuel
  induction fuel with
  | zero => intro seq ctr db; exact ⟨rfl, rfl, rfl, rfl, rfl, rfl, rfl, rfl⟩
  | succ n ih =>
    intro seq ctr db
    rw [optimize_route_loop]
    split
    · cases hs : selectMinBy (fun p => dist current (oracle (ctr + p.1)))
          (unsequencedRows db pid).enum with
      | none => simp [hs]
      | some p =>
        obtain ⟨i, po⟩ := p
        simp only [hs]
        obtain ⟨h1, h2, h3, h4, h5, h6, h7, h8⟩ :=
          ih (seq + 1) (ctr + (unsequencedRows db pid).length) (optStep db pid po.order_id seq)
        refine ⟨?_, ?_, ?_, ?_, ?_, ?_, ?_, ?_⟩
        · rw [h1]; rfl
        · rw [h2]; rfl
        · rw [h3]; rfl
        · rw [h4]; rfl
        · rw [h5]; rfl
        · rw [h6]; rfl
        · rw [h7]; rfl
        · rw [h8]; exact optStep_proj db pid po.order_id seq
    · exact ⟨rfl, rfl, rfl, rfl, rfl, rfl, rfl, rfl⟩

theorem optimize_route_rest (dist : Rat × Rat → Rat × Rat → Rat)
    (oracle : Nat → Rat × Rat) (db : DB) (pid : Nat) :
    (optimize_route dist oracle db pid).orders = db.orders ∧
    (optimize_route dist oracle db pid).facilities = db.facilities ∧
    (optimize_route dist oracle db pid).drivers = db.drivers ∧
    (optimize_route dist oracle db pid).facility_drivers = db.facility_drivers ∧
    (optimize_route dist oracle db pid).driver_packages = db.driver_packages ∧
    (optimize_route dist oracle db pid).package_logs = db.package_logs ∧
    (optimize_route dist oracle db pid).nextId = db.nextId ∧
    (optimize_route dist oracle db pid).package_orders.map poProj =
      db.package_orders.map poProj := by
  unfold optimize_route
  exact optimize_route_loop_rest dist oracle _ pid _ 1 0 db

theorem insertDriverPackage_spec (db : DB) (driver : Option Nat) (facility date : Nat)
    (status : PkgStatus) :
    (insertDriverPackage db driver facility date status).2 = db.nextId ∧
    (insertDriverPackage db driver facility date status).1 = { db with
      driver_packages := db.driver_packages ++
        [{ id := db.nextId, driver_id := driver, facility_id := facility,
           package_date := date, status := status, created_at := db.nextId }],
      package_logs := db.package_logs ++ (match driver with
        | none => [{ package_id := some db.nextId,
                     event_type := .unassigned_package_alert,
                     detail_facility := some facility, detail_order := none,
                     detail_driver := none, detail_date := some date,
                     detail_error := none }]
        | some _ => []),
      nextId := db.nextId + 1 } := by
  cases driver with
  | none => exact ⟨rfl, rfl⟩
  | some d => exact ⟨rfl, by simp [insertDriverPackage]⟩

theorem validate_ok_setOrderDriver {db dbm : DB} {new : PackageOrderRow}
    (h : validate_order_assignment db new = .ok dbm) :
    setOrderDriver db new.order_id
      ((db.driver_packages.find? (fun dp => decide (dp.id = new.package_id))).bind
        (fun dp => dp.driver_id)) = .ok dbm := by
  unfold validate_order_assignment at h
  split at h
  · cases h
  · split at h
    · cases h
    · exact h

theorem setOrderDriver_none_orders {db db1 : DB} {o : OrderRow}
    (hmem : o ∈ db.orders)
    (hid : db.orders.Pairwise (fun a b => a.id ≠ b.id))
    (hnone : o.assigned_driver_id = none)
    (h : setOrderDriver db o.id none = .ok db1) : db1.orders = db.orders := by
  rcases setOrderDriver_ok_orders h with he | ⟨r, hf, hmap⟩
  · exact he
  · have hr : r ∈ db.orders := List.mem_of_find?_eq_some hf
    have hrid : r.id = o.id := by simpa using List.find?_some hf
    have hro : r = o := pairwise_key_unique (fun x => x.id) _ hid r hr o hmem hrid
    subst hro
    rw [hmap]
    apply map_replace_self
    intro a ha
    by_cases hax : a.id = r.id
    · have har : a = r := pairwise_key_unique (fun x => x.id) _ hid a ha r hmem hax
      subst har
      simp only [if_pos rfl]
      cases a
      simp_all
    · simp [hax]

theorem insertAssignments_ok_rest {pid : Nat} :
    ∀ (os : List OrderRow) (db db2 : DB), insertAssignments db pid os = .ok db2 →
    db2.facilities = db.facilities ∧ db2.drivers = db.drivers ∧
    db2.facility_drivers = db.facility_drivers ∧
    db2.driver_packages = db.driver_packages ∧
    db2.package_logs = db.package_logs ∧ db.nextId ≤ db2.nextId := by
  intro os
  induction os with
  | nil =>
    intro db db2 h
    cases h
    exact ⟨rfl, rfl, rfl, rfl, rfl, le_refl _⟩
  | cons o os ih =>
    intro db db2 h
    unfold insertAssignments at h
    cases hi : insertPackageOrder { db with nextId := db.nextId + 1 }
        { id := db.nextId, package_id := pid, order_id := o.id, sequence_number := 0 } with
    | error e => rw [hi] at h; simp at h
    | ok db1 =>
      rw [hi] at h
      dsimp only at h
      obtain ⟨r1, r2, r3, r4, r5, r6⟩ := insertPackageOrder_ok_rest hi
      obtain ⟨s1, s2, s3, s4, s5, s6⟩ := ih db1 db2 h
      refine ⟨s1.trans r1, s2.trans r2, s3.trans r3, s4.trans r4, s5.trans r5, ?_⟩
      have : db1.nextId = db.nextId + 1 := r6
      omega

theorem insertAssignments_ok_po {pid : Nat} :
    ∀ (os : List OrderRow) (db db2 : DB), insertAssignments db pid os = .ok db2 →
    ∃ t, db2.package_orders = db.package_orders ++ t ∧
      t.map (fun po => (po.package_id, po.order_id)) = os.map (fun o => (pid, o.id)) := by
  intro os
  induction os with
  | nil =>
    intro db db2 h
    cases h
    exact ⟨[], by simp, by simp⟩
  | cons o os ih =>
    intro db db2 h
    unfold insertAssignments at h
    cases hi : insertPackageOrder { db with nextId := db.nextId + 1 }
        { id := db.nextId, package_id := pid, order_id := o.id, sequence_number := 0 } with
    | error e => rw [hi] at h; simp at h
    | ok db1 =>
      rw [hi] at h
      dsimp only at h
      obtain ⟨t, ht, hm⟩ := ih db1 db2 h
      have hp := insertPackageOrder_ok_po hi
      refine ⟨{ id := db.nextId, package_id := pid, order_id := o.id, sequence_number := 0 } :: t, ?_, ?_⟩
      · rw [ht, hp]
        simp
      · simp [hm]

theorem insertAssignments_ok_fresh {pid : Nat} :
    ∀ (os : List OrderRow) (db db2 : DB), insertAssignments db pid os = .ok db2 →
    ∀ o ∈ os, db.package_orders.any (fun po => decide (po.order_id = o.id)) = false := by
  intro os
  induction os with
  | nil => intro db db2 _ o ho; cases ho
  | cons o os ih =>
    intro db db2 h o1 ho1
    unfold insertAssignments at h
    cases hi : insertPackageOrder { db with nextId := db.nextId + 1 }
        { id := db.nextId, package_id := pid, order_id := o.id, sequence_number := 0 } with
    | error e => rw [hi] at h; simp at h
    | ok db1 =>
      rw [hi] at h
      dsimp only at h
      rcases List.mem_cons.mp ho1 with rfl | hmem
      · have hfr := insertPackageOrder_ok_fresh hi
        rw [List.any_eq_false]
        intro po hpo
        simpa using hfr po hpo
      · have hstep := ih db1 db2 h o1 hmem
        have hp := insertPackageOrder_ok_po hi
        rw [hp] at hstep
        rw [List.any_append] at hstep
        exact (Bool.or_eq_false_iff.mp hstep).1

theorem insertAssignments_ok_inv1 {pid : Nat} :
    ∀ (os : List OrderRow) (db db2 : DB), Inv1 db →
    insertAssignments db pid os = .ok db2 → Inv1 db2 := by
  intro os
  induction os with
  | nil => intro db db2 hinv h; cases h; exact hinv
  | cons o os ih =>
    intro db db2 hinv h
    unfold insertAssignments at h
    cases hi : insertPackageOrder { db with nextId := db.nextId + 1 }
        { id := db.nextId, package_id := pid, order_id := o.id, sequence_number := 0 } with
    | error e => rw [hi] at h; simp at h
    | ok db1 =>
      rw [hi] at h
      dsimp only at h
      have hinv1 : Inv1 { db with nextId := db.nextId + 1 } := hinv
      exact ih db1 db2 (Inv1_insert hinv1 hi) h

theorem insertAssignments_count {pid : Nat} :
    ∀ (os : List OrderRow) (db db2 : DB), insertAssignments db pid os = .ok db2 →
    ∀ pid', countPkg db2 pid' = countPkg db pid' + (if pid = pid' then os.length else 0) := by
  intro os
  induction os with
  | nil => intro db db2 h pid'; cases h; simp
  | cons o os ih =>
    intro db db2 h pid'
    unfold insertAssignments at h
    cases hi : insertPackageOrder { db with nextId := db.nextId + 1 }
        { id := db.nextId, package_id := pid, order_id := o.id, sequence_number := 0 } with
    | error e => rw [hi] at h; simp at h
    | ok db1 =>
      rw [hi] at h
      dsimp only at h
      have hc1 := countPkg_insert hi pid'
      have hc2 := ih db1 db2 h pid'
      have hcb : countPkg { db with nextId := db.nextId + 1 } pid' = countPkg db pid' := rfl
      rw [hc2, hc1, hcb]
      by_cases hp : pid = pid'
      · simp [hp, List.length_cons]
        omega
      · simp [hp]

theorem freshIds_insert {db db1 : DB} {new : PackageOrderRow} (hf : FreshIds db)
    (hlt : new.package_id < db.nextId)
    (h : insertPackageOrder db new = .ok db1) : FreshIds db1 := by
  obtain ⟨_, _, _, r4, _, r6⟩ := insertPackageOrder_ok_rest h
  constructor
  · intro dp hdp
    rw [r4] at hdp
    rw [r6]
    exact hf.1 dp hdp
  · intro po hpo
    rw [insertPackageOrder_ok_po h] at hpo
    rw [r6]
    rcases List.mem_append.mp hpo with hl | hr
    · exact hf.2 po hl
    · rcases List.mem_singleton.mp hr with rfl
      exact hlt

theorem insertAssignments_freshIds {pid : Nat} :
    ∀ (os : List OrderRow) (db db2 : DB), FreshIds db → pid < db.nextId →
    insertAssignments db pid os = .ok db2 → FreshIds db2 := by
  intro os
  induction os with
  | nil => intro db db2 hf _ h; cases h; exact hf
  | cons o os ih =>
    intro db db2 hf hlt h
    unfold insertAssignments at h
    cases hi : insertPackageOrder { db with nextId := db.nextId + 1 }
        { id := db.nextId, package_id := pid, order_id := o.id, sequence_number := 0 } with
    | error e => rw [hi] at h; simp at h
    | ok db1 =>
      rw [hi] at h
      dsimp only at h
      have hfb : FreshIds { db with nextId := db.nextId + 1 } := by
        constructor
        · intro dp hdp; exact Nat.lt_succ_of_lt (hf.1 dp hdp)
        · intro po hpo; exact Nat.lt_succ_of_lt (hf.2 po hpo)
      have hf1 : FreshIds db1 := freshIds_insert hfb (Nat.lt_succ_of_lt hlt) hi
      have hlt1 : pid < db1.nextId := by
        have : db1.nextId = db.nextId + 1 := (insertPackageOrder_ok_rest hi).2.2.2.2.2
        omega
      exact ih db1 db2 hf1 hlt1 h

theorem insertAssignments_ok_orders {pid : Nat} :
    ∀ (os : List OrderRow) (db db2 : DB),
    ((db.driver_packages.find? (fun dp => decide (dp.id = pid))).bind
      (fun dp => dp.driver_id)) = none →
    db.orders.Pairwise (fun a b => a.id ≠ b.id) →
    (∀ o ∈ os, o ∈ db.orders ∧ o.assigned_driver_id = none) →
    insertAssignments db pid os = .ok db2 → db2.orders = db.orders := by
  intro os
  induction os with
  | nil => intro db db2 _ _ _ h; cases h; rfl
  | cons o os ih =>
    intro db db2 hv hid hos h
    unfold insertAssignments at h
    cases hi : insertPackageOrder { db with nextId := db.nextId + 1 }
        { id := db.nextId, package_id := pid, order_id := o.id, sequence_number := 0 } with
    | error e => rw [hi] at h; simp at h
    | ok db1 =>
      rw [hi] at h
      dsimp only at h
      obtain ⟨dbm, hvm, horders⟩ := insertPackageOrder_ok_orders hi
      have hset := validate_ok_setOrderDriver hvm
      rw [show ({ db with nextId := db.nextId + 1 } : DB).driver_packages =
        db.driver_packages from rfl] at hset
      rw [hv] at hset
      have hmemo := hos o (List.mem_cons_self o os)
      have hmemb : o ∈ ({ db with nextId := db.nextId + 1 } : DB).orders := hmemo.1
      have hidb : ({ db with nextId := db.nextId + 1 } : DB).orders.Pairwise
          (fun a b => a.id ≠ b.id) := hid
      have hset2 : setOrderDriver { db with nextId := db.nextId + 1 } o.id none =
          .ok dbm := hset
      have hordm : dbm.orders = db.orders :=
        @setOrderDriver_none_orders { db with nextId := db.nextId + 1 } dbm o
          hmemb hidb hmemo.2 hset2
      have hord1 : db1.orders = db.orders := horders.trans hordm
      have hdp1 : db1.driver_packages = db.driver_packages :=
        (insertPackageOrder_ok_rest hi).2.2.2.1
      have hv1 : ((db1.driver_packages.find? (fun dp => decide (dp.id = pid))).bind
          (fun dp => dp.driver_id)) = none := by rw [hdp1]; exact hv
      have hid1 : db1.orders.Pairwise (fun a b => a.id ≠ b.id) := by rw [hord1]; exact hid
      have hos1 : ∀ o1 ∈ os, o1 ∈ db1.orders ∧ o1.assigned_driver_id = none := by
        intro o1 ho1
        rw [hord1]
        exact hos o1 (List.mem_cons_of_mem o ho1)
      exact (ih db1 db2 hv1 hid1 hos1 h).trans hord1

theorem optimize_route_count (dist : Rat × Rat → Rat × Rat → Rat)
    (oracle : Nat → Rat × Rat) (db : DB) (pid pid' : Nat) :
    countPkg (optimize_route dist oracle db pid) pid' = countPkg db pid' :=
  proj_count (optimize_route_rest dist oracle db pid).2.2.2.2.2.2.2 pid'

theorem optimize_route_inv1 (dist : Rat × Rat → Rat × Rat → Rat)
    (oracle : Nat → Rat × Rat) (db : DB) (pid : Nat) :
    Inv1 (optimize_route dist oracle db pid) ↔ Inv1 db :=
  proj_pairwise (optimize_route_rest dist oracle db pid).2.2.2.2.2.2.2

theorem optimize_route_freshIds (dist : Rat × Rat → Rat × Rat → Rat)
    (oracle : Nat → Rat × Rat) (db : DB) (pid : Nat) (hf : FreshIds db) :
    FreshIds (optimize_route dist oracle db pid) := by
  obtain ⟨_, _, _, _, h5, _, h7, h8⟩ := optimize_route_rest dist oracle db pid
  constructor
  · intro dp hdp
    rw [h5] at hdp
    rw [h7]
    exact hf.1 dp hdp
  · intro po hpo
    rw [h7]
    have : poProj po ∈ (optimize_route dist oracle db pid).package_orders.map poProj :=
      List.mem_map_of_mem _ hpo
    rw [h8] at this
    obtain ⟨po2, hm2, hpe⟩ := List.mem_map.mp this
    have : po.package_id = po2.package_id := by
      have := congrArg (fun t : Nat × Nat × Nat => t.2.1) hpe
      simpa [poProj] using this.symm
    rw [this]
    exact hf.2 po2 hm2

theorem sameExceptOrders_trans {db1 db2 db3 : DB}
    (h1 : SameExceptOrders db1 db2) (h2 : SameExceptOrders db2 db3) :
    SameExceptOrders db1 db3 :=
  ⟨h2.1.trans h1.1, h2.2.1.trans h1.2.1, h2.2.2.1.trans h1.2.2.1,
   h2.2.2.2.1.trans h1.2.2.2.1, h2.2.2.2.2.1.trans h1.2.2.2.2.1,
   h2.2.2.2.2.2.1.trans h1.2.2.2.2.2.1, h2.2.2.2.2.2.2.trans h1.2.2.2.2.2.2⟩

theorem countPkg_fresh {db : DB} (hf : FreshIds db) : countPkg db db.nextId = 0 := by
  unfold countPkg
  rw [List.filter_eq_nil_iff.mpr]
  · rfl
  · intro po hpo
    have := hf.2 po hpo
    simp only [decide_eq_true_eq]
    omega

theorem selectMaxBy_mem {α β : Type} [LinearOrder β] (key : α → β) (l : List α) (x : α)
    (h : selectMaxBy key l = some x) : x ∈ l := by
  cases l with
  | nil => cases h
  | cons a as =>
    simp only [selectMaxBy, Option.some.injEq] at h
    subst h
    have : ∀ (b : α), as.foldl (fun best y => if key best < key y then y else best) b = b ∨
        as.foldl (fun best y => if key best < key y then y else best) b ∈ as := by
      induction as with
      | nil => intro b; exact Or.inl rfl
      | cons c cs ih =>
        intro b
        have hstep : (c :: cs).foldl (fun best y => if key best < key y then y else best) b =
            cs.foldl (fun best y => if key best < key y then y else best)
              (if key b < key c then c else b) := rfl
        rw [hstep]
        rcases ih (if key b < key c then c else b) with he | hm
        · rw [he]
          by_cases hc : key b < key c
          · simp only [if_pos hc]
            exact Or.inr (List.mem_cons_self _ _)
          · simp only [if_neg hc]
            exact Or.inl (by trivial)
        · exact Or.inr (List.mem_cons_of_mem _ hm)
    rcases this a with he | hm
    · rw [he]; exact List.mem_cons_self _ _
    · exact List.mem_cons_of_mem _ hm

theorem updateOrdersDriver_rest {pid d : Nat} :
    ∀ (oids : List Nat) (db db2 : DB), updateOrdersDriver db pid d oids = .ok db2 →
    SameExceptOrders db db2 := by
  intro oids
  induction oids with
  | nil => intro db db2 h; cases h; exact ⟨rfl, rfl, rfl, rfl, rfl, rfl, rfl⟩
  | cons oid oids ih =>
    intro db db2 h
    unfold updateOrdersDriver at h
    cases hs : setOrderDriver db oid (some d) with
    | error e => rw [hs] at h; simp at h
    | ok db1 =>
      rw [hs] at h
      dsimp only at h
      exact sameExceptOrders_trans (setOrderDriver_ok_rest hs) (ih db1 db2 h)

theorem freshIds_insertDriverPackage {db : DB} (hf : FreshIds db) (driver : Option Nat)
    (facility date : Nat) (status : PkgStatus) :
    FreshIds (insertDriverPackage db driver facility date status).1 := by
  obtain ⟨_, h1⟩ := insertDriverPackage_spec db driver facility date status
  rw [h1]
  constructor
  · intro dp hdp
    rcases List.mem_append.mp hdp with hl | hr
    · exact Nat.lt_succ_of_lt (hf.1 dp hl)
    · rcases List.mem_singleton.mp hr with rfl
      exact Nat.lt_succ_self _
  · intro po hpo
    exact Nat.lt_succ_of_lt (hf.2 po hpo)

theorem driverIteration_pres {dist : Rat × Rat → Rat × Rat → Rat}
    {oracle : Nat → Rat × Rat} {db db' : DB} {fid date d : Nat}
    (h : driverIteration dist oracle db fid date d = .ok db')
    (hf : FreshIds db) (hinv : Inv1 db) (hcap : Cap15 db) :
    FreshIds db' ∧ Inv1 db' ∧ Cap15 db' := by
  unfold driverIteration at h
  dsimp only at h
  obtain ⟨hpid, hdb1⟩ := insertDriverPackage_spec db (some d) fid date PkgStatus.assigned
  have hpo1 : (insertDriverPackage db (some d) fid date PkgStatus.assigned).1.package_orders =
      db.package_orders := by rw [hdb1]
  have hnext1 : (insertDriverPackage db (some d) fid date PkgStatus.assigned).1.nextId =
      db.nextId + 1 := by rw [hdb1]
  have hf1 : FreshIds (insertDriverPackage db (some d) fid date PkgStatus.assigned).1 :=
    freshIds_insertDriverPackage hf (some d) fid date PkgStatus.assigned
  have hinv1 : Inv1 (insertDriverPackage db (some d) fid date PkgStatus.assigned).1 := by
    unfold Inv1; rw [hpo1]; exact hinv
  have hcnt1 : ∀ x, countPkg (insertDriverPackage db (some d) fid date PkgStatus.assigned).1 x =
      countPkg db x := by intro x; unfold countPkg; rw [hpo1]
  have hcnt0 : countPkg (insertDriverPackage db (some d) fid date PkgStatus.assigned).1
      (insertDriverPackage db (some d) fid date PkgStatus.assigned).2 = 0 := by
    rw [hcnt1, hpid]; exact countPkg_fresh hf
  have hplt : (insertDriverPackage db (some d) fid date PkgStatus.assigned).2 <
      (insertDriverPackage db (some d) fid date PkgStatus.assigned).1.nextId := by
    rw [hpid, hnext1]; exact Nat.lt_succ_self _
  split at h
  · cases h
  · next db2 heq2 =>
    split at h
    · cases h
    · next db3 heq3 =>
      cases h
      have hinv2 : Inv1 db2 := insertAssignments_ok_inv1 _ _ _ hinv1 heq2
      have hf2 : FreshIds db2 := insertAssignments_freshIds _ _ _ hf1 hplt heq2
      have hcnt2 := insertAssignments_count _ _ _ heq2
      have hcap2 : Cap15 db2 := by
        intro x
        rw [hcnt2 x]
        by_cases hx : (insertDriverPackage db (some d) fid date PkgStatus.assigned).2 = x
        · rw [if_pos hx, ← hx, hcnt0]
          have := List.length_take_le 15
            (candidateOrders (insertDriverPackage db (some d) fid date PkgStatus.assigned).1
              fid date)
          omega
        · rw [if_neg hx, hcnt1]
          have := hcap x
          omega
      obtain ⟨_, _, _, u4, u5, _, u7⟩ := updateOrdersDriver_rest _ _ _ heq3
      have hf3 : FreshIds db3 := by
        constructor
        · intro dp hdp; rw [u4] at hdp; rw [u7]; exact hf2.1 dp hdp
        · intro po hpo; rw [u5] at hpo; rw [u7]; exact hf2.2 po hpo
      have hinv3 : Inv1 db3 := by unfold Inv1; rw [u5]; exact hinv2
      have hcap3 : Cap15 db3 := by
        intro x; unfold countPkg; rw [u5]; exact hcap2 x
      refine ⟨optimize_route_freshIds _ _ _ _ hf3,
        (optimize_route_inv1 _ _ _ _).mpr hinv3, ?_⟩
      intro x
      rw [optimize_route_count]
      exact hcap3 x

theorem pendingCycle_pres {dist : Rat × Rat → Rat × Rat → Rat}
    {oracle : Nat → Rat × Rat} {db db' : DB} {fid date : Nat}
    (h : pendingCycle dist oracle db fid date = .ok db')
    (hf : FreshIds db) (hinv : Inv1 db) (hcap : Cap15 db) :
    FreshIds db' ∧ Inv1 db' ∧ Cap15 db' := by
  unfold pendingCycle at h
  dsimp only at h
  obtain ⟨hpid, hdb1⟩ := insertDriverPackage_spec db none fid date PkgStatus.pending
  have hpo1 : (insertDriverPackage db none fid date PkgStatus.pending).1.package_orders =
      db.package_orders := by rw [hdb1]
  have hnext1 : (insertDriverPackage db none fid date PkgStatus.pending).1.nextId =
      db.nextId + 1 := by rw [hdb1]
  have hf1 : FreshIds (insertDriverPackage db none fid date PkgStatus.pending).1 :=
    freshIds_insertDriverPackage hf none fid date PkgStatus.pending
  have hinv1 : Inv1 (insertDriverPackage db none fid date PkgStatus.pending).1 := by
    unfold Inv1; rw [hpo1]; exact hinv
  have hcnt1 : ∀ x, countPkg (insertDriverPackage db none fid date PkgStatus.pending).1 x =
      countPkg db x := by intro x; unfold countPkg; rw [hpo1]
  have hcnt0 : countPkg (insertDriverPackage db none fid date PkgStatus.pending).1
      (insertDriverPackage db none fid date PkgStatus.pending).2 = 0 := by
    rw [hcnt1, hpid]; exact countPkg_fresh hf
  have hplt : (insertDriverPackage db none fid date PkgStatus.pending).2 <
      (insertDriverPackage db none fid date PkgStatus.pending).1.nextId := by
    rw [hpid, hnext1]; exact Nat.lt_succ_self _
  split at h
  · cases h
  · next db2 heq2 =>
    cases h
    have hinv2 : Inv1 db2 := insertAssignments_ok_inv1 _ _ _ hinv1 heq2
    have hf2 : FreshIds db2 := insertAssignments_freshIds _ _ _ hf1 hplt heq2
    have hcnt2 := insertAssignments_count _ _ _ heq2
    have hcap2 : Cap15 db2 := by
      intro x
      rw [hcnt2 x]
      by_cases hx : (insertDriverPackage db none fid date PkgStatus.pending).2 = x
      · rw [if_pos hx, ← hx, hcnt0]
        have := List.length_take_le 15
          (candidateOrders (insertDriverPackage db none fid date PkgStatus.pending).1 fid date)
        omega
      · rw [if_neg hx, hcnt1]
        have := hcap x
        omega
    exact ⟨optimize_route_freshIds _ _ _ _ hf2,
      (optimize_route_inv1 _ _ _ _).mpr hinv2, fun x => by
        rw [optimize_route_count]; exact hcap2 x⟩

theorem driverLoop_pres {dist : Rat × Rat → Rat × Rat → Rat} {oracle : Nat → Rat × Rat}
    {fid date : Nat} :
    ∀ (ds : List Nat) (db db' : DB), driverLoop dist oracle fid date ds db = .ok db' →
    FreshIds db → Inv1 db → Cap15 db → FreshIds db' ∧ Inv1 db' ∧ Cap15 db' := by
  intro ds
  induction ds with
  | nil => intro db db' h hf hi hc; cases h; exact ⟨hf, hi, hc⟩
  | cons d ds ih =>
    intro db db' h hf hi hc
    unfold driverLoop at h
    cases hd : driverIteration dist oracle db fid date d with
    | error e => rw [hd] at h; simp at h
    | ok db1 =>
      rw [hd] at h
      dsimp only at h
      obtain ⟨hf1, hi1, hc1⟩ := driverIteration_pres hd hf hi hc
      by_cases hz : (candidateOrders db1 fid date).length = 0
      · rw [if_pos hz] at h
        cases h
        exact ⟨hf1, hi1, hc1⟩
      · rw [if_neg hz] at h
        exact ih db1 db' h hf1 hi1 hc1

theorem pendingLoop_pres {dist : Rat × Rat → Rat × Rat → Rat} {oracle : Nat → Rat × Rat}
    {fid date : Nat} :
    ∀ (fuel : Nat) (db db' : DB),
    pendingLoop dist oracle fid date fuel db = some (.ok db') →
    FreshIds db → Inv1 db → Cap15 db → FreshIds db' ∧ Inv1 db' ∧ Cap15 db' := by
  intro fuel
  induction fuel with
  | zero => intro db db' h; cases h
  | succ n ih =>
    intro db db' h hf hi hc
    unfold pendingLoop at h
    by_cases hz : (candidateOrders db fid date).length = 0
    · rw [if_pos hz] at h
      cases h
      exact ⟨hf, hi, hc⟩
    · rw [if_neg hz] at h
      cases hp : pendingCycle dist oracle db fid date with
      | error e => rw [hp] at h; simp at h
      | ok db1 =>
        rw [hp] at h
        dsimp only at h
        obtain ⟨hf1, hi1, hc1⟩ := pendingCycle_pres hp hf hi hc
        exact ih db1 db' h hf1 hi1 hc1

theorem facilityBody_pres {dist : Rat × Rat → Rat × Rat → Rat} {oracle : Nat → Rat × Rat}
    {db db' : DB} {fid date : Nat}
    (h : facilityBody dist oracle db fid date = .ok db')
    (hf : FreshIds db) (hi : Inv1 db) (hc : Cap15 db) :
    FreshIds db' ∧ Inv1 db' ∧ Cap15 db' := by
  unfold facilityBody at h
  by_cases hz : (candidateOrders db fid date).length = 0
  · rw [if_pos hz] at h
    cases h
    exact ⟨hf, hi, hc⟩
  · rw [if_neg hz] at h
    cases hd : driverLoop dist oracle fid date (eligibleDrivers db fid date) db with
    | error e => rw [hd] at h; simp at h
    | ok db1 =>
      rw [hd] at h
      dsimp only at h
      obtain ⟨hf1, hi1, hc1⟩ := driverLoop_pres _ db db1 hd hf hi hc
      cases hp : pendingLoop dist oracle fid date (unassignedCount db1 fid date + 1) db1 with
      | none =>
        rw [hp] at h
        dsimp only at h
        cases h
        exact ⟨hf1, hi1, hc1⟩
      | some r =>
        rw [hp] at h
        dsimp only at h
        cases r with
        | error e => cases h
        | ok db2 =>
          cases h
          exact pendingLoop_pres _ db1 _ hp hf1 hi1 hc1

theorem stepFacility_pres {dist : Rat × Rat → Rat × Rat → Rat} {oracle : Nat → Rat × Rat}
    {db : DB} {fid date : Nat}
    (hf : FreshIds db) (hi : Inv1 db) (hc : Cap15 db) :
    FreshIds (stepFacility dist oracle date db fid) ∧
    Inv1 (stepFacility dist oracle date db fid) ∧
    Cap15 (stepFacility dist oracle date db fid) := by
  unfold stepFacility
  cases hb : facilityBody dist oracle db fid date with
  | ok db1 => exact facilityBody_pres hb hf hi hc
  | error e =>
    refine ⟨⟨fun dp hdp => hf.1 dp hdp, fun po hpo => hf.2 po hpo⟩, hi, fun x => hc x⟩

theorem runFacilities_pres {dist : Rat × Rat → Rat × Rat → Rat} {oracle : Nat → Rat × Rat}
    {date : Nat} :
    ∀ (fs : List Nat) (db : DB), FreshIds db → Inv1 db → Cap15 db →
    FreshIds (runFacilities dist oracle date fs db) ∧
    Inv1 (runFacilities dist oracle date fs db) ∧
    Cap15 (runFacilities dist oracle date fs db) := by
  intro fs
  induction fs with
  | nil => intro db hf hi hc; exact ⟨hf, hi, hc⟩
  | cons f fs ih =>
    intro db hf hi hc
    obtain ⟨hf1, hi1, hc1⟩ := @stepFacility_pres dist oracle db f date hf hi hc
    exact ih _ hf1 hi1 hc1

theorem findOrCreatePackage_spec (db : DB) (fid dt : Nat) (drv : Option Nat)
    (hf : FreshIds db) :
    countPkg (findOrCreatePackage db fid dt drv).1 (findOrCreatePackage db fid dt drv).2 < 15 ∧
    (findOrCreatePackage db fid dt drv).2 < (findOrCreatePackage db fid dt drv).1.nextId ∧
    FreshIds (findOrCreatePackage db fid dt drv).1 ∧
    (findOrCreatePackage db fid dt drv).1.package_orders = db.package_orders ∧
    (findOrCreatePackage db fid dt drv).1.orders = db.orders := by
  unfold findOrCreatePackage
  dsimp only
  cases hsel : Option.map (fun dp => dp.id) (selectMaxBy (fun dp => dp.created_at)
      (List.filter (fun dp => sqlEqOpt dp.driver_id drv &&
        decide (dp.package_date = dt) && decide (countPkg db dp.id < 15))
        db.driver_packages)) with
  | some pid =>
    dsimp only
    obtain ⟨dp0, hdp0, hdpid⟩ := Option.map_eq_some'.mp hsel
    have hmem := selectMaxBy_mem _ _ _ hdp0
    have hmem2 := List.mem_filter.mp hmem
    have hcnt : countPkg db dp0.id < 15 := by
      have := hmem2.2
      simp only [Bool.and_eq_true, decide_eq_true_eq] at this
      exact this.2
    refine ⟨?_, ?_, hf, rfl, rfl⟩
    · rw [← hdpid]; exact hcnt
    · rw [← hdpid]; exact hf.1 dp0 hmem2.1
  | none =>
    cases drv with
    | some d =>
      dsimp only
      obtain ⟨hpid, hdb1⟩ := insertDriverPackage_spec db (some d) fid dt PkgStatus.assigned
      have hpo : (insertDriverPackage db (some d) fid dt PkgStatus.assigned).1.package_orders =
          db.package_orders := by rw [hdb1]
      have hnext : (insertDriverPackage db (some d) fid dt PkgStatus.assigned).1.nextId =
          db.nextId + 1 := by rw [hdb1]
      have horders : (insertDriverPackage db (some d) fid dt PkgStatus.assigned).1.orders =
          db.orders := by rw [hdb1]
      refine ⟨?_, ?_, freshIds_insertDriverPackage hf (some d) fid dt PkgStatus.assigned,
        hpo, horders⟩
      · have : countPkg (insertDriverPackage db (some d) fid dt PkgStatus.assigned).1
            (insertDriverPackage db (some d) fid dt PkgStatus.assigned).2 = 0 := by
          unfold countPkg
          rw [hpo, hpid]
          exact countPkg_fresh hf
        omega
      · rw [hpid, hnext]; exact Nat.lt_succ_self _
    | none =>
      dsimp only
      obtain ⟨hpid, hdb1⟩ := insertDriverPackage_spec db none fid dt PkgStatus.pending
      have hpo : (insertDriverPackage db none fid dt PkgStatus.pending).1.package_orders =
          db.package_orders := by rw [hdb1]
      have hnext : (insertDriverPackage db none fid dt PkgStatus.pending).1.nextId =
          db.nextId + 1 := by rw [hdb1]
      have horders : (insertDriverPackage db none fid dt PkgStatus.pending).1.orders =
          db.orders := by rw [hdb1]
      refine ⟨?_, ?_, freshIds_insertDriverPackage hf none fid dt PkgStatus.pending,
        hpo, horders⟩
      · have : countPkg (insertDriverPackage db none fid dt PkgStatus.pending).1
            (insertDriverPackage db none fid dt PkgStatus.pending).2 = 0 := by
          unfold countPkg
          rw [hpo, hpid]
          exact countPkg_fresh hf
        omega
      · rw [hpid, hnext]; exact Nat.lt_succ_self _

theorem handle_pres {db db1 : DB} {o new1 : OrderRow}
    (h : handle_order_package db o = .ok (db1, new1))
    (hf : FreshIds db) (hi : Inv1 db) (hc : Cap15 db) :
    FreshIds db1 ∧ Inv1 db1 ∧ Cap15 db1 := by
  unfold handle_order_package at h
  split at h
  · cases h; exact ⟨hf, hi, hc⟩
  · split at h
    · cases h; exact ⟨hf, hi, hc⟩
    · next fid hfac =>
      split at h
      · cases h; exact ⟨hf, hi, hc⟩
      · next hnone =>
        dsimp only at h
        split at h
        · cases h
        · next db2 heq2 =>
          cases h
          set c := findOrCreatePackage db fid o.estimated_delivery_date
            (find_available_driver db fid o.estimated_delivery_date) with hcdef
          obtain ⟨scnt, slt, sfresh, spo, sorders⟩ :=
            findOrCreatePackage_spec db fid o.estimated_delivery_date
              (find_available_driver db fid o.estimated_delivery_date) hf
          rw [← hcdef] at scnt slt sfresh spo sorders
          have hfb : FreshIds { c.1 with nextId := c.1.nextId + 1 } := by
            constructor
            · intro dp hdp; exact Nat.lt_succ_of_lt (sfresh.1 dp hdp)
            · intro po hpo; exact Nat.lt_succ_of_lt (sfresh.2 po hpo)
          have hib : Inv1 { c.1 with nextId := c.1.nextId + 1 } := by
            unfold Inv1
            show c.1.package_orders.Pairwise _
            rw [spo]
            exact hi
          have hf2 := freshIds_insert hfb (Nat.lt_succ_of_lt slt) heq2
          have hi2 := Inv1_insert hib heq2
          have hcnt2 := countPkg_insert heq2
          have hcntb : ∀ x, countPkg { c.1 with nextId := c.1.nextId + 1 } x =
              countPkg db x := by
            intro x
            unfold countPkg
            show (c.1.package_orders.filter _).length = _
            rw [spo]
          have hcntc : ∀ x, countPkg c.1 x = countPkg db x := by
            intro x
            unfold countPkg
            rw [spo]
          have hc2 : Cap15 db2 := by
            intro x
            rw [hcnt2 x, hcntb x]
            show countPkg db x + (if c.2 = x then 1 else 0) ≤ 15
            by_cases hx : c.2 = x
            · rw [if_pos hx]
              have hlt : countPkg db x < 15 := by rw [← hx, ← hcntc]; exact scnt
              omega
            · rw [if_neg hx]
              have := hc x
              omega
          exact ⟨hf2, hi2, hc2⟩

theorem assignOrder_pres (db : DB) (oid : Nat)
    (hf : FreshIds db) (hi : Inv1 db) (hc : Cap15 db) :
    FreshIds (assignOrder db oid) ∧ Inv1 (assignOrder db oid) ∧ Cap15 (assignOrder db oid) := by
  unfold assignOrder
  split
  · exact ⟨hf, hi, hc⟩
  · next o hfind =>
    split
    · exact ⟨hf, hi, hc⟩
    · next db1 new1 heq =>
      obtain ⟨f2, i2, c2⟩ := handle_pres heq hf hi hc
      exact ⟨⟨fun dp hdp => f2.1 dp hdp, fun po hpo => f2.2 po hpo⟩, i2, fun x => c2 x⟩

theorem reachable_inv : ∀ {db : DB}, Reachable db →
    FreshIds db ∧ Inv1 db ∧ Cap15 db := by
  intro db h
  induction h with
  | init =>
    refine ⟨⟨?_, ?_⟩, ?_, ?_⟩
    · intro dp hdp; cases hdp
    · intro po hpo; cases hpo
    · exact List.Pairwise.nil
    · intro pid; show (List.filter _ []).length ≤ 15; simp
  | external h hstep ih =>
    obtain ⟨f1, i1, c1⟩ := ih
    obtain ⟨e1, e2, _, e4⟩ := hstep
    refine ⟨⟨?_, ?_⟩, ?_, ?_⟩
    · intro dp hdp; rw [e1] at hdp; rw [e4]; exact f1.1 dp hdp
    · intro po hpo; rw [e2] at hpo; rw [e4]; exact f1.2 po hpo
    · unfold Inv1; rw [e2]; exact i1
    · intro pid; unfold countPkg; rw [e2]; exact c1 pid
  | assign oid h ih =>
    obtain ⟨f1, i1, c1⟩ := ih
    exact assignOrder_pres _ oid f1 i1 c1
  | batch dist oracle date h ih =>
    obtain ⟨f1, i1, c1⟩ := ih
    unfold generate_driver_packages
    exact runFacilities_pres _ _ f1 i1 c1
  | setDriver oid v h ih =>
    obtain ⟨f1, i1, c1⟩ := ih
    split
    · next db1 heq =>
      obtain ⟨_, _, _, r4, r5, _, r7⟩ := setOrderDriver_ok_rest heq
      refine ⟨⟨?_, ?_⟩, ?_, ?_⟩
      · intro dp hdp; rw [r4] at hdp; rw [r7]; exact f1.1 dp hdp
      · intro po hpo; rw [r5] at hpo; rw [r7]; exact f1.2 po hpo
      · unfold Inv1; rw [r5]; exact i1
      · intro pid; unfold countPkg; rw [r5]; exact c1 pid
    · exact ⟨f1, i1, c1⟩

theorem pairwise_replace (l : List PackageOrderRow) (new : PackageOrderRow)
    (hids : l.Pairwise (fun a b => a.id ≠ b.id))
    (hinv : l.Pairwise (fun a b => a.order_id ≠ b.order_id))
    (hnew : ∀ po ∈ l, po.id ≠ new.id → po.order_id ≠ new.order_id) :
    (l.map (fun po => if po.id = new.id then new else po)).Pairwise
      (fun a b => a.order_id ≠ b.order_id) := by
  induction l with
  | nil => exact List.Pairwise.nil
  | cons a t ih =>
    obtain ⟨hids_head, hids_tail⟩ := List.pairwise_cons.mp hids
    obtain ⟨hinv_head, hinv_tail⟩ := List.pairwise_cons.mp hinv
    simp only [List.map_cons, List.pairwise_cons]
    constructor
    · intro b hb
      obtain ⟨x, hx, hfx⟩ := List.mem_map.mp hb
      by_cases hax : a.id = new.id
      · have hxa : x.id ≠ new.id := by
          intro hcon
          exact hids_head x hx (hax.trans hcon.symm)
        have hfa : (if a.id = new.id then new else a) = new := if_pos hax
        have hfxx : (if x.id = new.id then new else x) = x := if_neg hxa
        rw [hfa, ← hfx, hfxx]
        exact fun hcon => hnew x (List.mem_cons_of_mem a hx) hxa hcon.symm
      · have hfa : (if a.id = new.id then new else a) = a := if_neg hax
        rw [hfa, ← hfx]
        by_cases hxn : x.id = new.id
        · rw [if_pos hxn]
          exact hnew a (List.mem_cons_self a t) hax
        · rw [if_neg hxn]
          exact hinv_head x hx
    · exact ih hids_tail hinv_tail (fun po hpo => hnew po (List.mem_cons_of_mem a hpo))

theorem Inv1_update {db db1 : DB} {new : PackageOrderRow} (hinv : Inv1 db)
    (hpk : db.package_orders.Pairwise (fun a b => a.id ≠ b.id))
    (h : updatePackageOrder db new = .ok db1) : Inv1 db1 := by
  unfold updatePackageOrder at h
  split at h
  · cases hv : validate_order_assignment db new with
    | error e => rw [hv] at h; simp at h
    | ok dbm =>
      rw [hv] at h
      dsimp only at h
      have hrest := validate_ok_rest hv
      by_cases hu : (dbm.package_orders.any (fun po => decide (po.id ≠ new.id) &&
          decide (po.order_id = new.order_id))) = true
      · rw [if_pos hu] at h; cases h
      · rw [if_neg hu] at h
        cases h
        unfold Inv1
        show (dbm.package_orders.map _).Pairwise _
        rw [hrest.2.2.2.2.1]
        apply pairwise_replace _ _ hpk hinv
        intro po hpo hne hoid
        apply hu
        apply List.any_eq_true.mpr
        refine ⟨po, ?_, ?_⟩
        · rw [hrest.2.2.2.2.1]; exact hpo
        · simp [hne, hoid]
  · cases h
    exact hinv

/-- C1: at every reachable state at most one Assignment references any
order; a guarded insert preserves the invariant, a guarded update preserves
it, inserting a second Assignment for an order that already sits in a
different package is rejected with the `OrderAlreadyAssigned` exception of
`validate_order_assignment`, and inserting any second Assignment for an
already-assigned order is rejected with some error (the
`unique_order_assignment` constraint backs up the trigger). -/
theorem C1_unique_order_assignment (db : DB) (new : PackageOrderRow)
    (hinv : Inv1 db)
    (hpk : db.package_orders.Pairwise (fun a b => a.id ≠ b.id)) :
    (∀ db0, Reachable db0 → Inv1 db0) ∧
    (∀ db1, insertPackageOrder db new = .ok db1 → Inv1 db1) ∧
    (∀ db1, updatePackageOrder db new = .ok db1 → Inv1 db1) ∧
    ((∃ po ∈ db.package_orders, po.order_id = new.order_id ∧
        po.package_id ≠ new.package_id) →
      insertPackageOrder db new = .error (.orderAlreadyAssigned new.order_id)) ∧
    ((∃ po ∈ db.package_orders, po.order_id = new.order_id) →
      ∃ e, insertPackageOrder db new = .error e) := by
  refine ⟨fun db0 h0 => (reachable_inv h0).2.1,
    fun db1 h1 => Inv1_insert hinv h1,
    fun db1 h1 => Inv1_update hinv hpk h1, ?_, ?_⟩
  · rintro ⟨po, hmem, hoid, hne⟩
    have hany : (db.package_orders.any (fun po => decide (po.order_id = new.order_id) &&
        decide (po.package_id ≠ new.package_id))) = true :=
      List.any_eq_true.mpr ⟨po, hmem, by simp [hoid, hne]⟩
    unfold insertPackageOrder validate_order_assignment
    rw [if_pos hany]
  · rintro ⟨po, hmem, hoid⟩
    cases hv : insertPackageOrder db new with
    | error e => exact ⟨e, rfl⟩
    | ok db1 => exact absurd hoid (insertPackageOrder_ok_fresh hv po hmem)

/-- C1 witness: on a state holding an Assignment of order 1 in package 20,
inserting a second Assignment of order 1 into package 50 is rejected with
`OrderAlreadyAssigned`. -/
theorem C1_unique_order_assignment_witness :
    insertPackageOrder dbC8after
      { id := 99, package_id := 50, order_id := 1, sequence_number := 0 } =
      .error (.orderAlreadyAssigned 1) :=
  (C1_unique_order_assignment dbC8after
    { id := 99, package_id := 50, order_id := 1, sequence_number := 0 }
    (by unfold Inv1; decide) (by decide)).2.2.2.1 (by decide)

/-- C2: at every state reachable through the engine's operations, every
package carries at most `MAX_PACKAGE_SIZE = 15` Assignments. -/
theorem C2_package_capacity (db : DB) (h : Reachable db) :
    ∀ pid, countPkg db pid ≤ 15 :=
  (reachable_inv h).2.2

/-- C2 witness: a state built by an external intake step followed by the
single-order assignment path. -/
theorem C2_package_capacity_witness : countPkg (assignOrder dbExt 1) 10 ≤ 15 :=
  C2_package_capacity (assignOrder dbExt 1)
    (Reachable.assign 1 (Reachable.external Reachable.init ⟨rfl, rfl, rfl, rfl⟩)) 10

/-- C3 companion / C4 (code-bug evaluation): on a state whose only facility
is active but closed at the order's requested noon delivery time, the
`assign_nearest_facility` trigger of frosty_union still resolves the order
to that facility — the shipping coordinates are never populated, so the
fallback `SELECT id FROM facilities WHERE status = true LIMIT 1` always
runs, no `NoFacilityAvailable` error is surfaced, and the facility
reference is not left unset. -/
theorem C4_silent_facility_fallback :
    assign_nearest_facility discreteDist dbC4 ordC4 =
      { ordC4 with facility_id := some 1 } ∧
    dbC4.facilities.filter (fun f => f.status &&
      decide (f.opening_hour ≤ ordC4.estimated_delivery_time) &&
      decide (ordC4.estimated_delivery_time ≤ f.close_hour)) = [] := by
  decide

/-- C5 counterexample: two active, open facilities at identical coordinates
(so every distance function, the haversine included, ties), scanned with
id 2 before id 1.  The embedded `find_nearest_facility` returns facility 2,
the specification's id tie-break returns facility 1. -/
theorem C5_tie_break_counterexample :
    find_nearest_facility discreteDist dbC5 52 4 720 = some 2 ∧
    find_nearest_facility_specVersion discreteDist dbC5 52 4 720 = some 1 := by
  decide

/-- C5 as amended: for every distance function, `find_nearest_facility`
returns NULL exactly when no active facility is open at the delivery time,
and otherwise returns an active, open facility whose distance to the order
is minimal among all active open facilities (so a nearer-but-closed
facility is never chosen); ties fall to the scan order of the facilities
table, not to the lowest id. -/
theorem C5_nearest_open_facility (dist : Rat × Rat → Rat × Rat → Rat) (db : DB)
    (la lo : Rat) (t : Nat) :
    (find_nearest_facility dist db la lo t = none →
      ∀ f ∈ db.facilities, ¬(f.status = true ∧ f.opening_hour ≤ t ∧ t ≤ f.close_hour)) ∧
    (∀ fid, find_nearest_facility dist db la lo t = some fid →
      ∃ f ∈ db.facilities, f.id = fid ∧ f.status = true ∧ f.opening_hour ≤ t ∧
        t ≤ f.close_hour ∧
        ∀ g ∈ db.facilities, g.status = true → g.opening_hour ≤ t → t ≤ g.close_hour →
          dist (la, lo) (f.latitude, f.longitude) ≤ dist (la, lo) (g.latitude, g.longitude)) := by
  constructor
  · intro hn f hf hp
    unfold find_nearest_facility at hn
    rw [Option.map_eq_none'] at hn
    rw [selectMinBy_eq_none] at hn
    have : f ∈ db.facilities.filter (fun f => f.status &&
        decide (f.opening_hour ≤ t) && decide (t ≤ f.close_hour)) :=
      List.mem_filter.mpr ⟨hf, by simp [hp.1, hp.2.1, hp.2.2]⟩
    rw [hn] at this
    cases this
  · intro fid hs
    unfold find_nearest_facility at hs
    obtain ⟨f, hsel, hfid⟩ := Option.map_eq_some'.mp hs
    have hmem := selectMinBy_mem _ _ _ hsel
    have hmin := selectMinBy_le _ _ _ hsel
    obtain ⟨hmem2, hpred⟩ := List.mem_filter.mp hmem
    simp only [Bool.and_eq_true, decide_eq_true_eq] at hpred
    refine ⟨f, hmem2, hfid, hpred.1.1, hpred.1.2, hpred.2, ?_⟩
    intro g hg hgs hgo hgc
    exact hmin g (List.mem_filter.mpr ⟨hg, by simp [hgs, hgo, hgc]⟩)

/-- C5 witness: the amended statement applied to the tie fixture — the
returned facility 2 is open and distance-minimal. -/
theorem C5_nearest_open_facility_witness :
    ∃ f ∈ dbC5.facilities, f.id = 2 ∧ f.status = true ∧ f.opening_hour ≤ 720 ∧
      720 ≤ f.close_hour ∧
      ∀ g ∈ dbC5.facilities, g.status = true → g.opening_hour ≤ 720 → 720 ≤ g.close_hour →
        discreteDist (52, 4) (f.latitude, f.longitude) ≤
          discreteDist (52, 4) (g.latitude, g.longitude) :=
  (C5_nearest_open_facility discreteDist dbC5 52 4 720).2 2 (by decide)

/-- C8 counterexample: a facility with one candidate order and no drivers —
one pending-package cycle of the batch succeeds yet leaves the candidate
set (status `processing`, facility resolved, `assigned_driver_id IS NULL`)
exactly as it was, and it is non-empty: the cycle makes no progress on it. -/
theorem C8_pending_cycle_no_progress :
    exceptOk (pendingCycle discreteDist oracleZero dbC8 1 5) = true ∧
    candidateOrders dbC8after 1 5 = candidateOrders dbC8 1 5 ∧
    candidateOrders dbC8 1 5 ≠ [] := by
  decide

/-- C9 counterexample: driver 7 is an active driver with an active
(`assigned`) package for service date 5 and no conflicting orders; setting
order 1's `assigned_driver_id` to 7 for the same date nevertheless
succeeds — the update cascade (`enforce_active_driver`, then
`enforce_unique_driver_assignment`) checks other orders, never the
driver's active packages. -/
theorem C9_active_package_not_checked :
    exceptOk (setOrderDriver dbC9 1 (some 7)) = true ∧
    dbC9.drivers.any (fun dr => decide (dr.id = 7) && dr.status) = true ∧
    dbC9.driver_packages.any (fun dp => sqlEqOpt dp.driver_id (some 7) &&
      decide (dp.package_date = ordF1.estimated_delivery_date) &&
      decide (dp.status = PkgStatus.assigned)) = true := by
  decide

/-- C9 as amended: updating an order's assigned driver first runs the
`enforce_active_driver` trigger — a non-NULL driver without an active
`drivers` row is rejected (`Orders can only be assigned to active
drivers`) — and then `enforce_unique_driver_assignment`, which rejects
with `DriverDoubleBooked` exactly when some other order already carries
the same driver on the same delivery date; otherwise the update succeeds
and rewrites only that order's row.  Active packages of the driver play no
part in either check. -/
theorem C9_driver_update_guard (db : DB) (oid : Nat) (v : Option Nat) (o : OrderRow)
    (hfind : db.orders.find? (fun r => decide (r.id = oid)) = some o) :
    (∀ d, v = some d →
      db.drivers.any (fun dr => decide (dr.id = d) && dr.status) = false →
      setOrderDriver db oid v = .error .inactiveDriver) ∧
    ((∀ d, v = some d →
        db.drivers.any (fun dr => decide (dr.id = d) && dr.status) = true) →
      ((v.isSome = true ∧ db.orders.any (fun r => decide (r.id ≠ o.id) &&
          sqlEqOpt r.assigned_driver_id v &&
          decide (r.estimated_delivery_date = o.estimated_delivery_date)) = true) →
        setOrderDriver db oid v = .error (.driverDoubleBooked o.id)) ∧
      (¬(v.isSome = true ∧ db.orders.any (fun r => decide (r.id ≠ o.id) &&
          sqlEqOpt r.assigned_driver_id v &&
          decide (r.estimated_delivery_date = o.estimated_delivery_date)) = true) →
        setOrderDriver db oid v = .ok { db with orders := db.orders.map (fun r => if r.id = oid then { o with assigned_driver_id := v } else r) })) := by
  unfold setOrderDriver
  rw [hfind]
  dsimp only
  unfold validate_driver_status prevent_duplicate_driver_assignment
  cases v with
  | none =>
    refine ⟨fun d hd => Option.noConfusion hd, fun _ => ⟨?_, ?_⟩⟩
    · rintro ⟨hs, _⟩
      cases hs
    · intro _
      rfl
  | some d =>
    dsimp only
    constructor
    · intro d1 hd1 hin
      cases hd1
      have hni : ¬(db.drivers.any (fun dr => decide (dr.id = d) && dr.status) = true) := by
        rw [hin]
        exact Bool.false_ne_true
      rw [if_neg hni]
    · intro hact
      have hac : db.drivers.any (fun dr => decide (dr.id = d) && dr.status) = true :=
        hact d rfl
      rw [if_pos hac]
      dsimp only
      by_cases ha : db.orders.any (fun r => decide (r.id ≠ o.id) &&
          sqlEqOpt r.assigned_driver_id (some d) &&
          decide (r.estimated_delivery_date = o.estimated_delivery_date)) = true
      · rw [if_pos ha]
        constructor
        · intro _; rfl
        · intro hn
          exact absurd ⟨rfl, ha⟩ hn
      · rw [if_neg ha]
        constructor
        · rintro ⟨_, hcon⟩
          exact absurd hcon ha
        · intro _; rfl

/-- C9 witness: the amended guard applied to the active-package fixture —
driver 7 is active and no other order conflicts, so the update succeeds
even though driver 7 has an active package for the date. -/
theorem C9_driver_update_guard_witness :
    setOrderDriver dbC9 1 (some 7) = .ok { dbC9 with orders := dbC9.orders.map (fun r => if r.id = 1 then { ordF1 with assigned_driver_id := some 7 } else r) } :=
  (((C9_driver_update_guard dbC9 1 (some 7) ordF1 (by decide)).2 (by decide)).2 (by decide))

theorem any_id_setCoords (f : Nat → Option Rat × Option Rat) (l : List OrderRow) (x : Nat) :
    ((l.map (fun o => { o with latitude := (f o.id).1, longitude := (f o.id).2 })).any
      (fun o => decide (o.id = x))) = l.any (fun o => decide (o.id = x)) := by
  induction l with
  | nil => rfl
  | cons a t ih => simp only [List.map_cons, List.any_cons, ih]

theorem unsequencedRows_setCoords (f : Nat → Option Rat × Option Rat) (db : DB) (pid : Nat) :
    unsequencedRows (setOrderCoords f db) pid = unsequencedRows db pid := by
  unfold unsequencedRows setOrderCoords
  apply List.filter_congr
  intro po _
  simp only [any_id_setCoords]

theorem optStep_setCoords (f : Nat → Option Rat × Option Rat) (db : DB) (pid oid seq : Nat) :
    optStep (setOrderCoords f db) pid oid seq = setOrderCoords f (optStep db pid oid seq) := rfl

theorem optimize_route_loop_setCoords (dist : Rat × Rat → Rat × Rat → Rat)
    (oracle : Nat → Rat × Rat) (cur : Rat × Rat) (pid : Nat)
    (f : Nat → Option Rat × Option Rat) :
    ∀ fuel seq ctr db,
      optimize_route_loop dist oracle cur pid fuel seq ctr (setOrderCoords f db) =
        setOrderCoords f (optimize_route_loop dist oracle cur pid fuel seq ctr db) := by
  intro fuel
  induction fuel with
  | zero => intro seq ctr db; rfl
  | succ n ih =>
    intro seq ctr db
    rw [optimize_route_loop, optimize_route_loop]
    have hcond : ((setOrderCoords f db).package_orders.any (fun po =>
        decide (po.package_id = pid) && decide (po.sequence_number = 0))) =
        (db.package_orders.any (fun po =>
          decide (po.package_id = pid) && decide (po.sequence_number = 0))) := rfl
    rw [hcond, unsequencedRows_setCoords]
    by_cases hc : (db.package_orders.any (fun po =>
        decide (po.package_id = pid) && decide (po.sequence_number = 0))) = true
    · rw [if_pos hc, if_pos hc]
      cases hs : selectMinBy (fun p => dist cur (oracle (ctr + p.1)))
          (unsequencedRows db pid).enum with
      | none => simp only [hs]
      | some p =>
        obtain ⟨i, po⟩ := p
        simp only [hs]
        rw [optStep_setCoords]
        exact ih (seq + 1) (ctr + (unsequencedRows db pid).length) (optStep db pid po.order_id seq)
    · rw [if_neg hc, if_neg hc]

/-- C3 (code-bug evidence): the stop sequence computed by `optimize_route`
does not depend on the orders' coordinates at all — rewriting every order's
latitude/longitude by any two functions of the order id yields the same
`package_orders` result for every distance function and every draw of the
`random()` oracle.  The source compares `calculate_route_distance` of the
start position against `random() * 90` / `random() * 180` instead of the
joined order's coordinates, and never advances `current_lat`/`current_lon`,
so the claimed nearest-neighbor selection over actual stop coordinates
cannot be what it computes. -/
theorem C3_route_ignores_stop_coordinates (dist : Rat × Rat → Rat × Rat → Rat)
    (oracle : Nat → Rat × Rat) (db : DB) (pid : Nat)
    (f g : Nat → Option Rat × Option Rat) :
    (optimize_route dist oracle (setOrderCoords f db) pid).package_orders =
      (optimize_route dist oracle (setOrderCoords g db) pid).package_orders := by
  have key : ∀ h : Nat → Option Rat × Option Rat,
      (optimize_route dist oracle (setOrderCoords h db) pid).package_orders =
        (optimize_route dist oracle db pid).package_orders := by
    intro h
    unfold optimize_route
    have hcur : ((setOrderCoords h db).driver_packages.find?
          (fun dp => decide (dp.id = pid))).bind
        (fun dp => (setOrderCoords h db).facilities.find?
          (fun fc => decide (fc.id = dp.facility_id))) =
        (db.driver_packages.find? (fun dp => decide (dp.id = pid))).bind
          (fun dp => db.facilities.find? (fun fc => decide (fc.id = dp.facility_id))) := rfl
    rw [hcur]
    have hfuel : ((setOrderCoords h db).package_orders.filter (fun po =>
        decide (po.package_id = pid) && decide (po.sequence_number = 0))).length =
        ((db.package_orders.filter (fun po =>
          decide (po.package_id = pid) && decide (po.sequence_number = 0))).length) := rfl
    rw [hfuel, optimize_route_loop_setCoords]
    rfl
  rw [key f, key g]

theorem sqlEqOpt_none_right (x : Option Nat) : sqlEqOpt x none = false := by
  cases x <;> rfl

theorem sqlNeOpt_none_right (x : Option Nat) : sqlNeOpt x none = false := by
  cases x <;> rfl

theorem findOrCreatePackage_no_driver (db : DB) (fid dt : Nat) :
    findOrCreatePackage db fid dt none = insertDriverPackage db none fid dt .pending := by
  unfold findOrCreatePackage
  have hnil : db.driver_packages.filter (fun dp => sqlEqOpt dp.driver_id none &&
      decide (dp.package_date = dt) && decide (countPkg db dp.id < 15)) = [] := by
    apply List.filter_eq_nil_iff.mpr
    intro dp _
    simp [sqlEqOpt_none_right]
  rw [hnil]
  rfl

theorem setOrderDriver_none_ok (db : DB) (oid : Nat) :
    ∃ db1, setOrderDriver db oid none = .ok db1 := by
  unfold setOrderDriver
  cases hf : db.orders.find? (fun o => decide (o.id = oid)) with
  | none => exact ⟨db, rfl⟩
  | some o =>
    dsimp only
    unfold validate_driver_status prevent_duplicate_driver_assignment
    exact ⟨_, rfl⟩

theorem find?_append_none {α : Type} (p : α → Bool) (l1 l2 : List α)
    (h : l1.find? p = none) : (l1 ++ l2).find? p = l2.find? p := by
  induction l1 with
  | nil => rfl
  | cons a t ih =>
    cases hpa : p a with
    | true =>
      rw [List.find?_cons, hpa] at h
      exact Option.noConfusion h
    | false =>
      rw [List.find?_cons, hpa] at h
      show List.find? p (a :: (t ++ l2)) = _
      rw [List.find?_cons, hpa]
      exact ih h

/-- C7: when the per-order path finds no eligible driver, it does not fail:
a driverless `pending` package is created for the order's facility and
date, the AFTER INSERT trigger appends an `unassigned_package_alert` Event
referencing that package, and the order is assigned into it. -/
theorem C7_pending_package_and_alert (db : DB) (oid fid : Nat) (o : OrderRow)
    (hfind : db.orders.find? (fun r => decide (r.id = oid)) = some o)
    (hst : o.status = .processing)
    (hfac : o.facility_id = some fid)
    (hnoassign : db.package_orders.find? (fun po => decide (po.order_id = o.id)) = none)
    (hdrv : find_available_driver db fid o.estimated_delivery_date = none)
    (hfresh : ∀ dp ∈ db.driver_packages, dp.id < db.nextId) :
    ({ id := db.nextId, driver_id := none, facility_id := fid, package_date := o.estimated_delivery_date, status := .pending, created_at := db.nextId } : DriverPackageRow) ∈ (assignOrder db oid).driver_packages ∧
    ({ package_id := some db.nextId, event_type := .unassigned_package_alert, detail_facility := some fid, detail_order := none, detail_driver := none, detail_date := some o.estimated_delivery_date, detail_error := none } : PackageLogRow) ∈ (assignOrder db oid).package_logs ∧
    ∃ po ∈ (assignOrder db oid).package_orders,
      po.package_id = db.nextId ∧ po.order_id = o.id := by
  obtain ⟨hpid, hc1⟩ :=
    insertDriverPackage_spec db none fid o.estimated_delivery_date PkgStatus.pending
  set c1 := (insertDriverPackage db none fid o.estimated_delivery_date PkgStatus.pending).1
    with hc1def
  set c2 := (insertDriverPackage db none fid o.estimated_delivery_date PkgStatus.pending).2
    with hc2def
  have hdpc : c1.driver_packages = db.driver_packages ++ [{ id := db.nextId, driver_id := none, facility_id := fid, package_date := o.estimated_delivery_date, status := .pending, created_at := db.nextId }] := by rw [hc1]
  have hpoc : c1.package_orders = db.package_orders := by rw [hc1]
  have hlogc : c1.package_logs = db.package_logs ++ [{ package_id := some db.nextId, event_type := .unassigned_package_alert, detail_facility := some fid, detail_order := none, detail_driver := none, detail_date := some o.estimated_delivery_date, detail_error := none }] := by rw [hc1]
  have hnopo : ∀ po ∈ db.package_orders, ¬(po.order_id = o.id) := by
    intro po hpo
    have := List.find?_eq_none.mp hnoassign po hpo
    simpa using this
  set poR : PackageOrderRow := { id := c1.nextId, package_id := c2, order_id := o.id, sequence_number := (c1.package_orders.map (fun po => po.sequence_number)).foldl max 0 + 1 } with hpoRdef
  obtain ⟨dbm, hset⟩ := setOrderDriver_none_ok { c1 with nextId := c1.nextId + 1 } o.id
  have hrest := setOrderDriver_ok_rest hset
  have hch1 : (c1.package_orders.any (fun po => decide (po.order_id = o.id) && decide (po.package_id ≠ c2))) = false := by
    apply List.any_eq_false.mpr
    intro po hpo
    have : po ∈ db.package_orders := by rw [← hpoc]; exact hpo
    simp [hnopo po this]
  have hch2 : (c1.orders.any (fun r => decide (r.id = o.id) && c1.driver_packages.any (fun dp => decide (dp.id = c2) && sqlNeOpt r.assigned_driver_id dp.driver_id))) = false := by
    apply List.any_eq_false.mpr
    intro r _
    have hinner : (c1.driver_packages.any (fun dp => decide (dp.id = c2) && sqlNeOpt r.assigned_driver_id dp.driver_id)) = false := by
      apply List.any_eq_false.mpr
      intro dp hdp
      have hdp2 : dp ∈ db.driver_packages ++ [{ id := db.nextId, driver_id := none, facility_id := fid, package_date := o.estimated_delivery_date, status := .pending, created_at := db.nextId }] := by rw [← hdpc]; exact hdp
      rcases List.mem_append.mp hdp2 with hold | hnew
      · have hlt := hfresh dp hold
        have hne : ¬(dp.id = c2) := by rw [hpid]; omega
        simp [hne]
      · rcases List.mem_singleton.mp hnew with rfl
        simp [sqlNeOpt_none_right]
    simp [hinner]
  have hfindp : (c1.driver_packages.find? (fun dp => decide (dp.id = c2))) = some ({ id := db.nextId, driver_id := none, facility_id := fid, package_date := o.estimated_delivery_date, status := .pending, created_at := db.nextId } : DriverPackageRow) := by
    rw [hdpc]
    rw [find?_append_none]
    · rw [List.find?_cons, show (decide (({ id := db.nextId, driver_id := none, facility_id := fid, package_date := o.estimated_delivery_date, status := .pending, created_at := db.nextId } : DriverPackageRow).id = c2)) = true by simp [hpid]]
    · apply List.find?_eq_none.mpr
      intro dp hdp
      have := hfresh dp hdp
      simp only [decide_eq_true_eq]
      rw [hpid]
      omega
  have hval : validate_order_assignment { c1 with nextId := c1.nextId + 1 } poR = .ok dbm := by
    unfold validate_order_assignment
    dsimp only [hpoRdef]
    rw [Bool.eq_false_iff] at hch1
    rw [if_neg hch1]
    rw [Bool.eq_false_iff] at hch2
    rw [if_neg hch2]
    rw [hfindp]
    exact hset
  have hpom : dbm.package_orders = db.package_orders := by
    have h1 : dbm.package_orders = ({ c1 with nextId := c1.nextId + 1 } : DB).package_orders :=
      hrest.2.2.2.2.1
    rw [h1]
    exact hpoc
  have hins : insertPackageOrder { c1 with nextId := c1.nextId + 1 } poR = .ok { dbm with package_orders := dbm.package_orders ++ [poR] } := by
    unfold insertPackageOrder
    rw [hval]
    dsimp only [hpoRdef]
    have hu : (dbm.package_orders.any (fun po => decide (po.order_id = o.id))) = false := by
      apply List.any_eq_false.mpr
      intro po hpo
      have : po ∈ db.package_orders := by rw [← hpom]; exact hpo
      simp [hnopo po this]
    rw [Bool.eq_false_iff] at hu
    rw [if_neg hu]
  have hH : handle_order_package db o = .ok ({ { dbm with package_orders := dbm.package_orders ++ [poR] } with package_logs := dbm.package_logs ++ [{ package_id := some c2, event_type := .order_assigned, detail_facility := some fid, detail_order := some o.id, detail_driver := none, detail_date := none, detail_error := none }] }, o) := by
    unfold handle_order_package
    rw [if_neg (by simp [hst] : ¬(o.status ≠ OrderStatus.processing))]
    rw [hfac]
    dsimp only
    rw [hnoassign]
    dsimp only
    rw [hdrv]
    dsimp only
    rw [findOrCreatePackage_no_driver]
    rw [← hc1def, ← hc2def, ← hpoRdef]
    rw [hins]
  unfold assignOrder
  rw [hfind]
  dsimp only
  rw [hH]
  dsimp only
  have hdpm : dbm.driver_packages = c1.driver_packages := hrest.2.2.2.1
  have hlogm : dbm.package_logs = c1.package_logs := hrest.2.2.2.2.2.1
  refine ⟨?_, ?_, ?_⟩
  · show _ ∈ dbm.driver_packages
    rw [hdpm, hdpc]
    exact List.mem_append.mpr (Or.inr (List.mem_singleton.mpr rfl))
  · show _ ∈ dbm.package_logs ++ _
    rw [hlogm, hlogc]
    apply List.mem_append.mpr
    exact Or.inl (List.mem_append.mpr (Or.inr (List.mem_singleton.mpr rfl)))
  · refine ⟨poR, ?_, by rw [hpoRdef]; show c2 = db.nextId; rw [hpid], rfl⟩
    show _ ∈ dbm.package_orders ++ _
    exact List.mem_append.mpr (Or.inr (List.mem_singleton.mpr rfl))

/-- C7 witness: on `dbC8` (one processing order for facility 1, no
drivers), `AssignOrder` creates pending package 20 with its alert Event
and the order's Assignment. -/
theorem C7_pending_package_and_alert_witness :
    ({ id := 20, driver_id := none, facility_id := 1, package_date := 5, status := .pending, created_at := 20 } : DriverPackageRow) ∈ (assignOrder dbC8 1).driver_packages ∧
    ({ package_id := some 20, event_type := .unassigned_package_alert, detail_facility := some 1, detail_order := none, detail_driver := none, detail_date := some 5, detail_error := none } : PackageLogRow) ∈ (assignOrder dbC8 1).package_logs ∧
    ∃ po ∈ (assignOrder dbC8 1).package_orders, po.package_id = 20 ∧ po.order_id = 1 :=
  C7_pending_package_and_alert dbC8 1 1 ordF1 (by decide) (by decide) (by decide)
    (by decide) (by decide) (by decide)

theorem candidateOrders_orders_eq {db1 db2 : DB} (h : db1.orders = db2.orders)
    (fid date : Nat) : candidateOrders db1 fid date = candidateOrders db2 fid date := by
  unfold candidateOrders
  rw [h]

theorem pendingCycle_progress {dist : Rat × Rat → Rat × Rat → Rat}
    {oracle : Nat → Rat × Rat} {db db' : DB} {fid date : Nat}
    (h : pendingCycle dist oracle db fid date = .ok db')
    (hid : db.orders.Pairwise (fun a b => a.id ≠ b.id))
    (hfr : FreshIds db)
    (hnz : (candidateOrders db fid date).length ≠ 0) :
    db'.orders = db.orders ∧
    unassignedCount db' fid date < unassignedCount db fid date := by
  unfold pendingCycle at h
  dsimp only at h
  obtain ⟨hpid, hc1⟩ := insertDriverPackage_spec db none fid date PkgStatus.pending
  set c1 := (insertDriverPackage db none fid date PkgStatus.pending).1 with hc1def
  set c2 := (insertDriverPackage db none fid date PkgStatus.pending).2 with hc2def
  have hordc : c1.orders = db.orders := by rw [hc1]
  have hpoc : c1.package_orders = db.package_orders := by rw [hc1]
  have hdpc : c1.driver_packages = db.driver_packages ++ [{ id := db.nextId, driver_id := none, facility_id := fid, package_date := date, status := .pending, created_at := db.nextId }] := by rw [hc1]
  have hcands : candidateOrders c1 fid date = candidateOrders db fid date :=
    candidateOrders_orders_eq hordc fid date
  split at h
  · exact absurd h (by simp)
  · next db2 heq2 =>
    cases h
    rw [hcands] at heq2
    have hvnone : ((c1.driver_packages.find? (fun dp => decide (dp.id = c2))).bind
        (fun dp => dp.driver_id)) = none := by
      rw [hdpc, find?_append_none]
      · rw [List.find?_cons, show (decide (({ id := db.nextId, driver_id := none, facility_id := fid, package_date := date, status := .pending, created_at := db.nextId } : DriverPackageRow).id = c2)) = true by simp [hpid]]
        rfl
      · apply List.find?_eq_none.mpr
        intro dp hdp
        have := hfr.1 dp hdp
        simp only [decide_eq_true_eq]
        rw [hpid]
        omega
    have hidc : c1.orders.Pairwise (fun a b => a.id ≠ b.id) := by rw [hordc]; exact hid
    have htakemem : ∀ o1 ∈ (candidateOrders db fid date).take 15,
        o1 ∈ c1.orders ∧ o1.assigned_driver_id = none := by
      intro o1 ho1
      have hmem := List.take_subset 15 _ ho1
      have := List.mem_filter.mp hmem
      refine ⟨by rw [hordc]; exact this.1, ?_⟩
      have hp := this.2
      simp only [Bool.and_eq_true, decide_eq_true_eq] at hp
      exact hp.2
    have hord2 : db2.orders = c1.orders :=
      insertAssignments_ok_orders _ c1 db2 hvnone hidc htakemem heq2
    have hordF : (optimize_route dist oracle db2 c2).orders = db.orders := by
      rw [(optimize_route_rest dist oracle db2 c2).1, hord2, hordc]
    refine ⟨hordF, ?_⟩
    obtain ⟨t, hpo2, htmap⟩ := insertAssignments_ok_po _ c1 db2 heq2
    have hfreshrows := insertAssignments_ok_fresh _ c1 db2 heq2
    have hprojF := (optimize_route_rest dist oracle db2 c2).2.2.2.2.2.2.2
    have hanyF : ∀ x, ((optimize_route dist oracle db2 c2).package_orders.any
        (fun po => decide (po.order_id = x))) =
        (db2.package_orders.any (fun po => decide (po.order_id = x))) :=
      fun x => proj_any_order hprojF x
    unfold unassignedCount
    rw [candidateOrders_orders_eq hordF fid date]
    have hcnz : candidateOrders db fid date ≠ [] := by
      intro hcon
      rw [hcon] at hnz
      exact hnz rfl
    obtain ⟨o0, rest, hsplit⟩ := List.exists_cons_of_ne_nil hcnz
    have ho0taken : o0 ∈ (candidateOrders db fid date).take 15 := by
      rw [hsplit]
      show o0 ∈ (o0 :: rest).take 15
      have h15 : (0 : Nat) < 15 := by omega
      rcases Nat.exists_eq_succ_of_ne_zero (Nat.pos_iff_ne_zero.mp h15) with ⟨m, hm⟩
      rw [hm, List.take_succ_cons]
      exact List.mem_cons_self _ _
    have ho0mem : o0 ∈ candidateOrders db fid date := by
      rw [hsplit]; exact List.mem_cons_self _ _
    have hex : (t.any (fun po => decide (po.order_id = o0.id))) = true := by
      apply List.any_eq_true.mpr
      have hmemt : (c2, o0.id) ∈ t.map (fun po => (po.package_id, po.order_id)) := by
        rw [htmap]
        exact List.mem_map_of_mem _ ho0taken
      obtain ⟨po, hpom, hpe⟩ := List.mem_map.mp hmemt
      refine ⟨po, hpom, ?_⟩
      have hsnd : po.order_id = o0.id := congrArg Prod.snd hpe
      simp [hsnd]
    apply length_filter_lt _ _ _ ?_ o0 ho0mem ?_ ?_
    · intro a _ hpa
      simp only [Bool.not_eq_true'] at hpa
      simp only [Bool.not_eq_true']
      rw [hanyF] at hpa
      rw [hpo2, hpoc, List.any_append] at hpa
      exact (Bool.or_eq_false_iff.mp hpa).1
    · simp only [Bool.not_eq_true']
      have := hfreshrows o0 ho0taken
      rw [hpoc] at this
      exact this
    · simp only [Bool.not_eq_false']
      rw [hanyF, hpo2, hpoc, List.any_append, hex]
      simp

theorem pendingLoop_suffices {dist : Rat × Rat → Rat × Rat → Rat}
    {oracle : Nat → Rat × Rat} {fid date : Nat} :
    ∀ (n : Nat) (db : DB), db.orders.Pairwise (fun a b => a.id ≠ b.id) →
    FreshIds db → Inv1 db → Cap15 db → unassignedCount db fid date < n →
    pendingLoop dist oracle fid date n db ≠ none := by
  intro n
  induction n with
  | zero => intro db _ _ _ _ hm; omega
  | succ k ih =>
    intro db hid hf hinv hcap hm
    unfold pendingLoop
    by_cases hz : (candidateOrders db fid date).length = 0
    · rw [if_pos hz]; simp
    · rw [if_neg hz]
      cases hp : pendingCycle dist oracle db fid date with
      | error e => simp
      | ok db1 =>
        dsimp only
        obtain ⟨hord1, hm1⟩ := pendingCycle_progress hp hid hf hz
        obtain ⟨hf1, hinv1, hcap1⟩ := pendingCycle_pres hp hf hinv hcap
        apply ih db1 (by rw [hord1]; exact hid) hf1 hinv1 hcap1
        omega

/-- C8 as amended: the batch's pending-package WHILE loop always completes
within `unassignedCount + 1` iterations (the fuel `generate_driver_packages`
gives it), for every state with distinct order ids and a sound id counter:
each successful cycle claims at least one candidate that had no Assignment
yet, and once none remain a further cycle is rejected by the
assignment-uniqueness guard.  The candidate set itself does not shrink
(see the counterexample), so termination comes from the uniqueness guard,
not from the claimed strictly-shrinking candidate set. -/
theorem C8_pending_loop_terminates (dist : Rat × Rat → Rat × Rat → Rat)
    (oracle : Nat → Rat × Rat) (db : DB) (fid date : Nat)
    (hid : db.orders.Pairwise (fun a b => a.id ≠ b.id))
    (hf : FreshIds db) (hinv : Inv1 db) (hcap : Cap15 db) :
    pendingLoop dist oracle fid date (unassignedCount db fid date + 1) db ≠ none :=
  pendingLoop_suffices _ db hid hf hinv hcap (Nat.lt_succ_self _)

/-- C8 witness: the pending loop completes on the no-driver fixture. -/
theorem C8_pending_loop_terminates_witness :
    pendingLoop discreteDist oracleZero 1 5 (unassignedCount dbC8 1 5 + 1) dbC8 ≠ none :=
  C8_pending_loop_terminates discreteDist oracleZero dbC8 1 5 (by decide)
    (by unfold FreshIds; decide) (by unfold Inv1; decide)
    (by intro pid; show (List.filter _ []).length ≤ 15; simp)

theorem driverIteration_logs {dist : Rat × Rat → Rat × Rat → Rat}
    {oracle : Nat → Rat × Rat} {db db' : DB} {fid date d : Nat}
    (h : driverIteration dist oracle db fid date d = .ok db') :
    db'.package_logs = db.package_logs := by
  unfold driverIteration at h
  dsimp only at h
  obtain ⟨_, hdb1⟩ := insertDriverPackage_spec db (some d) fid date PkgStatus.assigned
  have hlog1 : (insertDriverPackage db (some d) fid date PkgStatus.assigned).1.package_logs =
      db.package_logs := by rw [hdb1]; simp
  split at h
  · cases h
  · next db2 heq2 =>
    split at h
    · cases h
    · next db3 heq3 =>
      cases h
      have l2 := (insertAssignments_ok_rest _ _ _ heq2).2.2.2.2.1
      have l3 := (updateOrdersDriver_rest _ _ _ heq3).2.2.2.2.2.1
      have l4 := (optimize_route_rest dist oracle db3
        (insertDriverPackage db (some d) fid date PkgStatus.assigned).2).2.2.2.2.2.1
      rw [l4, l3, l2, hlog1]

theorem driverLoop_logs {dist : Rat × Rat → Rat × Rat → Rat}
    {oracle : Nat → Rat × Rat} {fid date : Nat} :
    ∀ (ds : List Nat) (db db' : DB), driverLoop dist oracle fid date ds db = .ok db' →
    db'.package_logs = db.package_logs := by
  intro ds
  induction ds with
  | nil => intro db db' h; cases h; rfl
  | cons d ds ih =>
    intro db db' h
    unfold driverLoop at h
    cases hd : driverIteration dist oracle db fid date d with
    | error e => rw [hd] at h; simp at h
    | ok db1 =>
      rw [hd] at h
      dsimp only at h
      by_cases hz : (candidateOrders db1 fid date).length = 0
      · rw [if_pos hz] at h
        cases h
        exact driverIteration_logs hd
      · rw [if_neg hz] at h
        rw [ih db1 db' h, driverIteration_logs hd]

theorem pendingCycle_logs {dist : Rat × Rat → Rat × Rat → Rat}
    {oracle : Nat → Rat × Rat} {db db' : DB} {fid date : Nat}
    (h : pendingCycle dist oracle db fid date = .ok db') :
    ∃ t, db'.package_logs = db.package_logs ++ t := by
  unfold pendingCycle at h
  dsimp only at h
  obtain ⟨_, hdb1⟩ := insertDriverPackage_spec db none fid date PkgStatus.pending
  split at h
  · cases h
  · next db2 heq2 =>
    cases h
    have l2 := (insertAssignments_ok_rest _ _ _ heq2).2.2.2.2.1
    have l4 := (optimize_route_rest dist oracle db2
      (insertDriverPackage db none fid date PkgStatus.pending).2).2.2.2.2.2.1
    have hlog1 : (insertDriverPackage db none fid date PkgStatus.pending).1.package_logs =
        db.package_logs ++ [{ package_id := some db.nextId, event_type := .unassigned_package_alert, detail_facility := some fid, detail_order := none, detail_driver := none, detail_date := some date, detail_error := none }] := by
      rw [hdb1]
    exact ⟨_, by rw [l4, l2, hlog1]⟩

theorem pendingLoop_logs {dist : Rat × Rat → Rat × Rat → Rat}
    {oracle : Nat → Rat × Rat} {fid date : Nat} :
    ∀ (fuel : Nat) (db db' : DB),
    pendingLoop dist oracle fid date fuel db = some (.ok db') →
    ∃ t, db'.package_logs = db.package_logs ++ t := by
  intro fuel
  induction fuel with
  | zero => intro db db' h; cases h
  | succ k ih =>
    intro db db' h
    unfold pendingLoop at h
    by_cases hz : (candidateOrders db fid date).length = 0
    · rw [if_pos hz] at h
      cases h
      exact ⟨[], by simp⟩
    · rw [if_neg hz] at h
      cases hp : pendingCycle dist oracle db fid date with
      | error e => rw [hp] at h; simp at h
      | ok db1 =>
        rw [hp] at h
        dsimp only at h
        obtain ⟨t1, ht1⟩ := pendingCycle_logs hp
        obtain ⟨t2, ht2⟩ := ih db1 db' h
        exact ⟨t1 ++ t2, by rw [ht2, ht1, List.append_assoc]⟩

theorem facilityBody_logs {dist : Rat × Rat → Rat × Rat → Rat}
    {oracle : Nat → Rat × Rat} {db db' : DB} {fid date : Nat}
    (h : facilityBody dist oracle db fid date = .ok db') :
    ∃ t, db'.package_logs = db.package_logs ++ t := by
  unfold facilityBody at h
  by_cases hz : (candidateOrders db fid date).length = 0
  · rw [if_pos hz] at h
    cases h
    exact ⟨[], by simp⟩
  · rw [if_neg hz] at h
    cases hd : driverLoop dist oracle fid date (eligibleDrivers db fid date) db with
    | error e => rw [hd] at h; simp at h
    | ok db1 =>
      rw [hd] at h
      dsimp only at h
      have hl1 := driverLoop_logs _ db db1 hd
      cases hp : pendingLoop dist oracle fid date (unassignedCount db1 fid date + 1) db1 with
      | none =>
        rw [hp] at h
        dsimp only at h
        cases h
        exact ⟨[], by rw [hl1]; simp⟩
      | some r =>
        rw [hp] at h
        dsimp only at h
        cases r with
        | error e => cases h
        | ok db2 =>
          cases h
          obtain ⟨t, ht⟩ := pendingLoop_logs _ db1 _ hp
          exact ⟨t, by rw [ht, hl1]⟩

theorem runFacilities_logs {dist : Rat × Rat → Rat × Rat → Rat}
    {oracle : Nat → Rat × Rat} {date : Nat} :
    ∀ (fs : List Nat) (db : DB),
    ∃ t, (runFacilities dist oracle date fs db).package_logs = db.package_logs ++ t := by
  intro fs
  induction fs with
  | nil => intro db; exact ⟨[], by simp [runFacilities]⟩
  | cons f fs ih =>
    intro db
    have hstep : runFacilities dist oracle date (f :: fs) db =
        runFacilities dist oracle date fs (stepFacility dist oracle date db f) := rfl
    rw [hstep]
    obtain ⟨t2, ht2⟩ := ih (stepFacility dist oracle date db f)
    have : ∃ t1, (stepFacility dist oracle date db f).package_logs =
        db.package_logs ++ t1 := by
      unfold stepFacility
      cases hb : facilityBody dist oracle db f date with
      | ok db1 => exact facilityBody_logs hb
      | error e => exact ⟨[genErrorLog f e], rfl⟩
    obtain ⟨t1, ht1⟩ := this
    exact ⟨t1 ++ t2, by rw [ht2, ht1, List.append_assoc]⟩

/-- C10: a failing facility never aborts the batch run.  If the per-facility
body raises an error at facility `f`, the run over `fs1 ++ f :: fs2` equals
the run over the remaining facilities `fs2` started from the pre-`f` state
with only the `package_generation_error` Event (naming `f` and the error)
appended — the facility's own work is rolled back — and that error Event is
present in the final log. -/
theorem C10_facility_failure_isolated (dist : Rat × Rat → Rat × Rat → Rat)
    (oracle : Nat → Rat × Rat) (date : Nat) (db : DB) (fs1 : List Nat) (f : Nat)
    (fs2 : List Nat) (e : PgError)
    (h : facilityBody dist oracle (runFacilities dist oracle date fs1 db) f date =
      .error e) :
    runFacilities dist oracle date (fs1 ++ f :: fs2) db =
      runFacilities dist oracle date fs2
        { runFacilities dist oracle date fs1 db with package_logs :=
            (runFacilities dist oracle date fs1 db).package_logs ++ [genErrorLog f e] } ∧
    genErrorLog f e ∈ (runFacilities dist oracle date (fs1 ++ f :: fs2) db).package_logs := by
  have hsplit : runFacilities dist oracle date (fs1 ++ f :: fs2) db =
      runFacilities dist oracle date (f :: fs2) (runFacilities dist oracle date fs1 db) := by
    unfold runFacilities
    rw [List.foldl_append]
  have herr : stepFacility dist oracle date (runFacilities dist oracle date fs1 db) f =
      { runFacilities dist oracle date fs1 db with package_logs :=
          (runFacilities dist oracle date fs1 db).package_logs ++ [genErrorLog f e] } := by
    unfold stepFacility
    rw [h]
  have hmain : runFacilities dist oracle date (fs1 ++ f :: fs2) db =
      runFacilities dist oracle date fs2
        { runFacilities dist oracle date fs1 db with package_logs :=
            (runFacilities dist oracle date fs1 db).package_logs ++ [genErrorLog f e] } := by
    rw [hsplit]
    show runFacilities dist oracle date fs2
      (stepFacility dist oracle date (runFacilities dist oracle date fs1 db) f) = _
    rw [herr]
  refine ⟨hmain, ?_⟩
  rw [hmain]
  obtain ⟨t, ht⟩ := runFacilities_logs fs2
    { runFacilities dist oracle date fs1 db with package_logs :=
        (runFacilities dist oracle date fs1 db).package_logs ++ [genErrorLog f e] }
  rw [ht]
  show genErrorLog f e ∈ ((runFacilities dist oracle date fs1 db).package_logs ++
    [genErrorLog f e]) ++ t
  apply List.mem_append.mpr
  exact Or.inl (List.mem_append.mpr (Or.inr (List.mem_singleton.mpr rfl)))

/-- C10 witness: on `dbC10` facility 1's body fails (no drivers, a second
pending cycle re-selects the already-assigned order) while facility 2 is
still processed afterwards. -/
theorem C10_facility_failure_isolated_witness :
    runFacilities discreteDist oracleZero 5 ([] ++ 1 :: [2]) dbC10 =
      runFacilities discreteDist oracleZero 5 [2]
        { runFacilities discreteDist oracleZero 5 [] dbC10 with package_logs :=
            (runFacilities discreteDist oracleZero 5 [] dbC10).package_logs ++
              [genErrorLog 1 (.orderAlreadyAssigned 1)] } ∧
    genErrorLog 1 (.orderAlreadyAssigned 1) ∈
      (runFacilities discreteDist oracleZero 5 ([] ++ 1 :: [2]) dbC10).package_logs :=
  C10_facility_failure_isolated discreteDist oracleZero 5 dbC10 [] 1 [2]
    (.orderAlreadyAssigned 1) rfl

/-! ### Idempotency of the per-order path -/

theorem findOrCreatePackage_po_orders (db : DB) (fid dt : Nat) (drv : Option Nat) :
    (findOrCreatePackage db fid dt drv).1.package_orders = db.package_orders ∧
    (findOrCreatePackage db fid dt drv).1.orders = db.orders := by
  unfold findOrCreatePackage
  dsimp only
  cases hsel : Option.map (fun dp => dp.id) (selectMaxBy (fun dp => dp.created_at)
      (List.filter (fun dp => sqlEqOpt dp.driver_id drv &&
        decide (dp.package_date = dt) && decide (countPkg db dp.id < 15))
        db.driver_packages)) with
  | some pid =>
    dsimp only
    exact ⟨rfl, rfl⟩
  | none =>
    cases drv with
    | some d =>
      dsimp only
      obtain ⟨_, hdb1⟩ := insertDriverPackage_spec db (some d) fid dt PkgStatus.assigned
      exact ⟨by rw [hdb1], by rw [hdb1]⟩
    | none =>
      dsimp only
      obtain ⟨_, hdb1⟩ := insertDriverPackage_spec db none fid dt PkgStatus.pending
      exact ⟨by rw [hdb1], by rw [hdb1]⟩

theorem handle_early_status (db : DB) (new : OrderRow)
    (hs : new.status ≠ .processing) :
    handle_order_package db new = .ok (db, new) := by
  unfold handle_order_package
  rw [if_pos hs]

theorem handle_early_nofac (db : DB) (new : OrderRow)
    (hs : new.status = .processing) (hfac : new.facility_id = none) :
    handle_order_package db new = .ok (db, new) := by
  unfold handle_order_package
  rw [if_neg (not_not_intro hs), hfac]

theorem handle_early_pkg (db : DB) (new : OrderRow) (fid : Nat)
    (hs : new.status = .processing) (hfac : new.facility_id = some fid)
    (hpk : (db.package_orders.find?
      (fun po => decide (po.order_id = new.id))).isSome = true) :
    handle_order_package db new = .ok (db, new) := by
  unfold handle_order_package
  rw [if_neg (not_not_intro hs), hfac]
  dsimp only
  obtain ⟨po0, hpo0⟩ := Option.isSome_iff_exists.mp hpk
  rw [hpo0]

theorem replace_map_idem (l : List OrderRow) (n : OrderRow) (k : Nat) (hn : n.id = k) :
    (l.map (fun r => if r.id = k then n else r)).map (fun r => if r.id = k then n else r)
      = l.map (fun r => if r.id = k then n else r) := by
  rw [List.map_map]
  apply List.map_congr_left
  intro a _
  show (fun r => if r.id = k then n else r) ((fun r => if r.id = k then n else r) a)
      = (if a.id = k then n else a)
  by_cases ha : a.id = k
  · simp [ha, hn]
  · simp [ha]

theorem find?_replace_eq {l : List OrderRow} {k : Nat} {n : OrderRow} (hn : n.id = k)
    (h : (l.find? (fun r => decide (r.id = k))).isSome = true) :
    (l.map (fun r => if r.id = k then n else r)).find?
      (fun r => decide (r.id = k)) = some n := by
  have hpres : ∀ a : OrderRow, (fun r => decide (r.id = k))
      ((fun r => if r.id = k then n else r) a) = (fun r => decide (r.id = k)) a := by
    intro a
    by_cases ha : a.id = k
    · simp [ha, hn]
    · simp [ha]
  obtain ⟨o0, ho0⟩ := Option.isSome_iff_exists.mp h
  have hk : o0.id = k := by simpa using List.find?_some ho0
  rw [find?_map_pres _ _ _ hpres, ho0]
  show some (if o0.id = k then n else o0) = some n
  rw [if_pos hk]

theorem handle_ok_facts {db : DB} {o : OrderRow} {db3 : DB} {new1 : OrderRow}
    (hh : handle_order_package db o = .ok (db3, new1)) :
    new1.id = o.id ∧ new1.status = o.status ∧ new1.facility_id = o.facility_id ∧
    (db3.orders = db.orders ∨
      ∃ o0 v, db.orders.find? (fun r => decide (r.id = o.id)) = some o0 ∧
        db3.orders = db.orders.map (fun r =>
          if r.id = o.id then { o0 with assigned_driver_id := v } else r)) ∧
    (∀ dbF : DB, dbF.package_orders = db3.package_orders →
       handle_order_package dbF new1 = .ok (dbF, new1)) := by
  by_cases hs : o.status = .processing
  · cases hfac : o.facility_id with
    | none =>
      rw [handle_early_nofac db o hs hfac] at hh
      cases hh
      exact ⟨rfl, rfl, hfac, Or.inl rfl, fun dbF _ => handle_early_nofac dbF o hs hfac⟩
    | some fid =>
      cases hpo : db.package_orders.find? (fun po => decide (po.order_id = o.id)) with
      | some po0 =>
        rw [handle_early_pkg db o fid hs hfac (by rw [hpo]; rfl)] at hh
        cases hh
        refine ⟨rfl, rfl, hfac, Or.inl rfl,
          fun dbF hpk => handle_early_pkg dbF o fid hs hfac ?_⟩
        rw [hpk, hpo]
        rfl
      | none =>
        unfold handle_order_package at hh
        rw [if_neg (not_not_intro hs), hfac] at hh
        dsimp only at hh
        rw [hpo] at hh
        dsimp only at hh
        cases had : find_available_driver db fid o.estimated_delivery_date with
        | some d =>
          rw [had] at hh
          dsimp only at hh
          split at hh
          · cases hh
          · next db2 hins =>
            cases hh
            have hfcp := findOrCreatePackage_po_orders db fid o.estimated_delivery_date
              (some d)
            refine ⟨rfl, rfl, rfl, ?_, ?_⟩
            · obtain ⟨dbm, hvm, horders2⟩ := insertPackageOrder_ok_orders hins
              have hset := validate_ok_setOrderDriver hvm
              rcases setOrderDriver_ok_orders hset with he | ⟨o0, hf0, hmO⟩
              · exact Or.inl (horders2.trans (he.trans hfcp.2))
              · dsimp only at hf0 hmO
                rw [hfcp.2] at hf0 hmO
                exact Or.inr ⟨o0, _, hf0, horders2.trans hmO⟩
            · intro dbF hpk
              apply handle_early_pkg dbF _ fid
              · exact hs
              · rfl
              · show (dbF.package_orders.find?
                  (fun po => decide (po.order_id = o.id))).isSome = true
                rw [hpk]
                dsimp only
                rw [insertPackageOrder_ok_po hins]
                dsimp only
                rw [hfcp.1, find?_append_none _ _ _ hpo]
                simp [List.find?]
        | none =>
          rw [had] at hh
          dsimp only at hh
          split at hh
          · cases hh
          · next db2 hins =>
            cases hh
            have hfcp := findOrCreatePackage_po_orders db fid o.estimated_delivery_date none
            refine ⟨rfl, rfl, hfac, ?_, ?_⟩
            · obtain ⟨dbm, hvm, horders2⟩ := insertPackageOrder_ok_orders hins
              have hset := validate_ok_setOrderDriver hvm
              rcases setOrderDriver_ok_orders hset with he | ⟨o0, hf0, hmO⟩
              · exact Or.inl (horders2.trans (he.trans hfcp.2))
              · dsimp only at hf0 hmO
                rw [hfcp.2] at hf0 hmO
                exact Or.inr ⟨o0, _, hf0, horders2.trans hmO⟩
            · intro dbF hpk
              apply handle_early_pkg dbF _ fid
              · exact hs
              · exact hfac
              · show (dbF.package_orders.find?
                  (fun po => decide (po.order_id = o.id))).isSome = true
                rw [hpk]
                dsimp only
                rw [insertPackageOrder_ok_po hins]
                dsimp only
                rw [hfcp.1, find?_append_none _ _ _ hpo]
                simp [List.find?]
  · rw [handle_early_status db o hs] at hh
    cases hh
    exact ⟨rfl, rfl, rfl, Or.inl rfl, fun dbF _ => handle_early_status dbF o hs⟩

theorem assignOrder_fix (dbF : DB) (k : Nat) (n : OrderRow)
    (hfind : dbF.orders.find? (fun r => decide (r.id = k)) = some n)
    (hhandle : handle_order_package dbF n = .ok (dbF, n))
    (hmap : dbF.orders.map (fun r => if r.id = k then n else r) = dbF.orders) :
    assignOrder dbF k = dbF := by
  unfold assignOrder
  rw [hfind]
  dsimp only
  rw [hhandle]
  dsimp only
  rw [hmap]

/-- C6: `AssignOrder` is idempotent.  After one call the order carries an
Assignment (or the trigger skipped / failed deterministically), so a second
call on the same order takes the no-op early exit of
`handle_order_package` and reproduces the state of the first call exactly:
no new Package, no new Assignment, no change to the order's driver. -/
theorem C6_assign_order_idempotent (db : DB) (oid : Nat) :
    assignOrder (assignOrder db oid) oid = assignOrder db oid := by
  cases hf : db.orders.find? (fun r => decide (r.id = oid)) with
  | none =>
    have h1 : assignOrder db oid = db := by
      unfold assignOrder
      rw [hf]
    rw [h1, h1]
  | some o =>
    have hoid : o.id = oid := by simpa using List.find?_some hf
    subst hoid
    cases hh : handle_order_package db o with
    | error e =>
      have h1 : assignOrder db o.id = db := by
        unfold assignOrder
        rw [hf]
        dsimp only
        rw [hh]
      rw [h1, h1]
    | ok pr =>
      obtain ⟨db3, new1⟩ := pr
      obtain ⟨hid1, hst1, hfc1, horders3, hsecond⟩ := handle_ok_facts hh
      have h1 : assignOrder db o.id = { db3 with orders := db3.orders.map (fun r => if r.id = o.id then new1 else r) } := by
        unfold assignOrder
        rw [hf]
        dsimp only
        rw [hh]
      rw [h1]
      apply assignOrder_fix _ o.id new1
      · show (db3.orders.map (fun r => if r.id = o.id then new1 else r)).find?
            (fun r => decide (r.id = o.id)) = some new1
        apply find?_replace_eq hid1
        rcases horders3 with he | ⟨o0, v, hf0, hm⟩
        · rw [he, hf]
          rfl
        · have hpres : ∀ a : OrderRow, (fun r => decide (r.id = o.id))
              ((fun r => if r.id = o.id then { o0 with assigned_driver_id := v } else r) a)
              = (fun r => decide (r.id = o.id)) a := by
            intro a
            have ho0 : o0.id = o.id := by simpa using List.find?_some hf0
            by_cases ha : a.id = o.id
            · simp [ha, ho0]
            · simp [ha]
          rw [hm, find?_map_pres _ _ _ hpres, hf]
          rfl
      · exact hsecond _ rfl
      · show (db3.orders.map (fun r => if r.id = o.id then new1 else r)).map
            (fun r => if r.id = o.id then new1 else r)
          = db3.orders.map (fun r => if r.id = o.id then new1 else r)
        exact replace_map_idem db3.orders new1 o.id hid1
